import Mathlib

/-!
Verification of the superbot deployment pipeline (backend/app).

This file gives a shallow embedding, in Lean 4, of the parts of the code base
that the specification talks about:

* `backend/app/api/ai.py` — the response-normalisation layer
  (`_strip_code_fences`, `_parse_json_safely`, `_normalize_code_snippet`),
  together with a model of Python's `json.loads` / `json.dumps(·, indent=2)`;
* `backend/app/api/orchestrator.py` — the container driver
  (`docker_run_script_check`, `docker_run_server_check_host`,
  `_grab_container_logs`, `write_code_to_directory`) and the orchestrating
  state machine `run_deployment_pipeline`.

External effects (the MongoDB store, the text-generation service, the docker
runtime reached through subprocesses, the filesystem) are modelled by explicit
oracle records describing the answers the environment gives, and by event
traces recording, in order, every observable action the code performs.
Machine-level concerns (asyncio scheduling, realtime sleeps) are outside the
embedding; each `await` of a subprocess is modelled as the corresponding
oracle answer.
-/

deriving instance DecidableEq for Except

namespace Superbot

/-! ### Python string primitives

Python `str` operations used by the code, modelled over `List Char`.
`str.strip()` with no argument removes Unicode whitespace; every string the
code strips is produced by ASCII-oriented tooling, so the ASCII whitespace
set (space, tab, newline, carriage return, vertical tab, form feed) is the
faithful set for these call sites. -/

def isPyWs (c : Char) : Bool :=
  c == ' ' || c == '\t' || c == '\n' || c == '\r' || c == '\x0b' || c == '\x0c'

def dropLeadWs : List Char → List Char
  | [] => []
  | c :: cs => if isPyWs c then dropLeadWs cs else c :: cs

/-- Python `str.strip()`: drop trailing whitespace (via reverse) then leading. -/
def stripChars (cs : List Char) : List Char :=
  dropLeadWs ((dropLeadWs cs.reverse).reverse)

def pyStrip (s : String) : String := ⟨stripChars s.data⟩

/-- Python `str.lower()` restricted to ASCII letters; the only strings the code
lowercases are docker inspect outputs (`"true"`, `"false"`, `"True"`, …). -/
def lowerChar (c : Char) : Char :=
  if 'A' ≤ c && c ≤ 'Z' then Char.ofNat (c.toNat + 32) else c

def pyLower (s : String) : String := ⟨s.data.map lowerChar⟩

/-- `pat` occurs at the start of the second list. -/
def leadsWith : List Char → List Char → Bool
  | [], _ => true
  | _ :: _, [] => false
  | p :: ps, c :: cs => p == c && leadsWith ps cs

/-- Python `needle in haystack` on strings: substring occurrence
(the empty pattern occurs in everything, as in Python). -/
def occursIn (pat : List Char) : List Char → Bool
  | [] => leadsWith pat []
  | c :: t => leadsWith pat (c :: t) || occursIn pat t

def strContains (hay needle : String) : Bool := occursIn needle.data hay.data

/-! ### JSON values

The Python `json` module maps a JSON document to `dict`/`list`/`str`/
`int`/`float`/`bool`/`None`.  Numbers are kept as their source literal (the
code never looks inside a number: every claim only distinguishes strings from
non-strings).  Objects are association lists in insertion order with the
`dict` duplicate-key semantics (last value wins, first position kept). -/

inductive Json where
  | null : Json
  | bool (b : Bool) : Json
  | num (lit : String) : Json
  | str (s : String) : Json
  | arr (elems : List Json) : Json
  | obj (members : List (String × Json)) : Json

mutual

/-- Structural equality on JSON values (the restriction of Python `==` that
the code exercises: every comparison in the claims is between values of the
same shape or against a string). -/
def Json.beq : Json → Json → Bool
  | .null, .null => true
  | .bool a, .bool b => a == b
  | .num a, .num b => a == b
  | .str a, .str b => a == b
  | .arr xs, .arr ys => Json.beqList xs ys
  | .obj xs, .obj ys => Json.beqMembers xs ys
  | _, _ => false

def Json.beqList : List Json → List Json → Bool
  | [], [] => true
  | x :: xs, y :: ys => Json.beq x y && Json.beqList xs ys
  | _, _ => false

def Json.beqMembers : List (String × Json) → List (String × Json) → Bool
  | [], [] => true
  | x :: xs, y :: ys => (x.1 == y.1 && Json.beq x.2 y.2) && Json.beqMembers xs ys
  | _, _ => false

end

instance : BEq Json := ⟨Json.beq⟩

/-- `d[k] = v` on a Python dict rendered as an insertion-ordered list:
an existing key keeps its position and gets the new value, a new key is
appended. -/
def objInsert (acc : List (String × Json)) (k : String) (v : Json) :
    List (String × Json) :=
  if acc.any (fun p => p.1 == k) then
    acc.map (fun p => if p.1 == k then (k, v) else p)
  else acc ++ [(k, v)]

/-! ### A model of `json.loads`

A recursive-descent parser with explicit fuel (every recursive call burns one
unit; `loads` supplies ample fuel).  It follows the JSON grammar as accepted
by Python's `json.loads` in its default configuration: strict strings (raw
control characters rejected, `\uXXXX` escapes with surrogate-pair
recombination), the `NaN`/`Infinity`/`-Infinity` extensions, no trailing
commas, and `dict` duplicate-key semantics.  A lone surrogate escape, which
Python would keep as an unpaired surrogate code unit, is not representable as
a Lean `Char` and is mapped through `Char.ofNat` (no theorem in this file
depends on such inputs). -/

def jsonWsChar (c : Char) : Bool :=
  c == ' ' || c == '\t' || c == '\n' || c == '\r'

def skipJsonWs : List Char → List Char
  | [] => []
  | c :: cs => if jsonWsChar c then skipJsonWs cs else c :: cs

def hexVal (c : Char) : Option Nat :=
  if '0' ≤ c && c ≤ '9' then some (c.toNat - 48)
  else if 'a' ≤ c && c ≤ 'f' then some (c.toNat - 87)
  else if 'A' ≤ c && c ≤ 'F' then some (c.toNat - 55)
  else none

def hexQuad (h1 h2 h3 h4 : Char) : Option Nat := do
  let a ← hexVal h1
  let b ← hexVal h2
  let c ← hexVal h3
  let d ← hexVal h4
  pure (a * 4096 + b * 256 + c * 16 + d)

/-- Parse the body of a JSON string (after the opening quote), returning the
decoded characters and the remainder after the closing quote. -/
def parseStrBody : Nat → List Char → Option (List Char × List Char)
  | 0, _ => none
  | _ + 1, [] => none
  | fuel + 1, c :: cs =>
    if c == '"' then some ([], cs)
    else if c == '\\' then
      match cs with
      | [] => none
      | e :: cs2 =>
        if e == '"' then
          (parseStrBody fuel cs2).map (fun pr => ('"' :: pr.1, pr.2))
        else if e == '\\' then
          (parseStrBody fuel cs2).map (fun pr => ('\\' :: pr.1, pr.2))
        else if e == '/' then
          (parseStrBody fuel cs2).map (fun pr => ('/' :: pr.1, pr.2))
        else if e == 'b' then
          (parseStrBody fuel cs2).map (fun pr => ('\x08' :: pr.1, pr.2))
        else if e == 'f' then
          (parseStrBody fuel cs2).map (fun pr => ('\x0c' :: pr.1, pr.2))
        else if e == 'n' then
          (parseStrBody fuel cs2).map (fun pr => ('\n' :: pr.1, pr.2))
        else if e == 'r' then
          (parseStrBody fuel cs2).map (fun pr => ('\r' :: pr.1, pr.2))
        else if e == 't' then
          (parseStrBody fuel cs2).map (fun pr => ('\t' :: pr.1, pr.2))
        else if e == 'u' then
          match cs2 with
          | h1 :: h2 :: h3 :: h4 :: cs3 =>
            match hexQuad h1 h2 h3 h4 with
            | none => none
            | some n =>
              if 0xD800 ≤ n && n ≤ 0xDBFF then
                match cs3 with
                | '\\' :: 'u' :: g1 :: g2 :: g3 :: g4 :: cs4 =>
                  match hexQuad g1 g2 g3 g4 with
                  | none => none
                  | some m =>
                    if 0xDC00 ≤ m && m ≤ 0xDFFF then
                      (parseStrBody fuel cs4).map
                        (fun pr =>
                          (Char.ofNat (0x10000 + (n - 0xD800) * 1024 + (m - 0xDC00))
                            :: pr.1, pr.2))
                    else
                      (parseStrBody fuel cs3).map
                        (fun pr => (Char.ofNat n :: pr.1, pr.2))
                | _ =>
                  (parseStrBody fuel cs3).map
                    (fun pr => (Char.ofNat n :: pr.1, pr.2))
              else
                (parseStrBody fuel cs3).map
                  (fun pr => (Char.ofNat n :: pr.1, pr.2))
          | _ => none
        else none
    else if c.toNat < 0x20 then none
    else (parseStrBody fuel cs).map (fun pr => (c :: pr.1, pr.2))

def isDigitChar (c : Char) : Bool := '0' ≤ c && c ≤ '9'

def spanDigits : List Char → List Char × List Char
  | [] => ([], [])
  | c :: cs =>
    if isDigitChar c then
      let pr := spanDigits cs
      (c :: pr.1, pr.2)
    else ([], c :: cs)

/-- Parse the integer part of a JSON number: `0` or a nonzero digit followed
by digits (leading zeros rejected, as in `json.loads`). -/
def parseIntPart : List Char → Option (List Char × List Char)
  | [] => none
  | c :: cs =>
    if c == '0' then some (['0'], cs)
    else if isDigitChar c then
      let pr := spanDigits cs
      some (c :: pr.1, pr.2)
    else none

def parseFracPart : List Char → Option (List Char × List Char)
  | '.' :: cs =>
    let pr := spanDigits cs
    if pr.1.isEmpty then none else some ('.' :: pr.1, pr.2)
  | cs => some ([], cs)

def parseExpPart : List Char → Option (List Char × List Char)
  | c :: cs =>
    if c == 'e' || c == 'E' then
      match cs with
      | s :: cs2 =>
        if s == '+' || s == '-' then
          let pr := spanDigits cs2
          if pr.1.isEmpty then none else some (c :: s :: pr.1, pr.2)
        else
          let pr := spanDigits (s :: cs2)
          if pr.1.isEmpty then none else some (c :: pr.1, pr.2)
      | [] => none
    else some ([], c :: cs)
  | [] => some ([], [])

/-- Parse a JSON numeric literal (without leading `-`), returning its text. -/
def parseNumTail (cs : List Char) : Option (List Char × List Char) := do
  let (ip, r1) ← parseIntPart cs
  let (fp, r2) ← parseFracPart r1
  let (ep, r3) ← parseExpPart r2
  pure (ip ++ fp ++ ep, r3)

mutual

def parseVal : Nat → List Char → Option (Json × List Char)
  | 0, _ => none
  | fuel + 1, cs0 =>
    match skipJsonWs cs0 with
    | [] => none
    | c :: rest =>
      if c == '"' then
        (parseStrBody (rest.length + 1) rest).map
          (fun pr => (Json.str ⟨pr.1⟩, pr.2))
      else if c == '\x7b' then
        match skipJsonWs rest with
        | '\x7d' :: rest2 => some (Json.obj [], rest2)
        | rest2 => parseMembers fuel rest2 []
      else if c == '[' then
        match skipJsonWs rest with
        | ']' :: rest2 => some (Json.arr [], rest2)
        | rest2 => parseElems fuel rest2
      else if leadsWith "true".data (c :: rest) then
        some (Json.bool true, (c :: rest).drop 4)
      else if leadsWith "false".data (c :: rest) then
        some (Json.bool false, (c :: rest).drop 5)
      else if leadsWith "null".data (c :: rest) then
        some (Json.null, (c :: rest).drop 4)
      else if leadsWith "NaN".data (c :: rest) then
        some (Json.num "NaN", (c :: rest).drop 3)
      else if leadsWith "Infinity".data (c :: rest) then
        some (Json.num "Infinity", (c :: rest).drop 8)
      else if leadsWith "-Infinity".data (c :: rest) then
        some (Json.num "-Infinity", (c :: rest).drop 9)
      else if c == '-' then
        (parseNumTail rest).map (fun pr => (Json.num ⟨'-' :: pr.1⟩, pr.2))
      else
        (parseNumTail (c :: rest)).map (fun pr => (Json.num ⟨pr.1⟩, pr.2))

/-- Parse the members of an object, starting at a (whitespace-skipped)
position that must hold a key string; `acc` is the dict built so far. -/
def parseMembers : Nat → List Char → List (String × Json) →
    Option (Json × List Char)
  | 0, _, _ => none
  | fuel + 1, cs, acc =>
    match cs with
    | [] => none
    | c :: rest =>
      if c == '"' then
        match parseStrBody (rest.length + 1) rest with
        | none => none
        | some (key, r1) =>
          match skipJsonWs r1 with
          | ':' :: r2 =>
            match parseVal fuel r2 with
            | none => none
            | some (v, r3) =>
              match skipJsonWs r3 with
              | ',' :: r4 => parseMembers fuel (skipJsonWs r4) (objInsert acc ⟨key⟩ v)
              | '\x7d' :: r4 => some (Json.obj (objInsert acc ⟨key⟩ v), r4)
              | _ => none
          | _ => none
      else none

/-- Parse the elements of an array, starting at a (whitespace-skipped)
position that must hold a value. -/
def parseElems : Nat → List Char → Option (Json × List Char)
  | 0, _ => none
  | fuel + 1, cs =>
    match parseVal fuel cs with
    | none => none
    | some (v, r1) =>
      match skipJsonWs r1 with
      | ',' :: r2 =>
        match parseElems fuel r2 with
        | none => none
        | some (Json.arr xs, r3) => some (Json.arr (v :: xs), r3)
        | some _ => none
      | ']' :: r2 => some (Json.arr [v], r2)
      | _ => none

end

/-- `json.loads`: parse one document, allowing only whitespace after it
(anything else raises `JSONDecodeError`, modelled as `none`). -/
def loads (s : String) : Option Json :=
  match parseVal (2 * s.data.length + 2) s.data with
  | some (j, rest) => if (skipJsonWs rest).isEmpty then some j else none
  | none => none

/-! ### A model of `json.dumps(·, indent=2)` on a string-to-string dict

`orchestrator.run_deployment_pipeline` and `ai.fix_code_with_logs` serialize
the accepted file mapping with `json.dumps(code_dict, indent=2)`.  The dict
being serialized always maps strings to strings.  With its defaults
(`ensure_ascii=True`) `json.dumps` escapes `"` and `\`, uses the short
escapes `\n \t \r \b \f`, writes any other control character and any
non-ASCII character as `\uXXXX` (lowercase hex, surrogate pairs above
U+FFFF), and with `indent=2` separates items by `,\n` + two spaces and keys
from values by `": "`. -/

def hexDigitChar (n : Nat) : Char :=
  if n < 10 then Char.ofNat (48 + n) else Char.ofNat (87 + n)

def hex4 (n : Nat) : List Char :=
  [hexDigitChar (n / 4096 % 16), hexDigitChar (n / 256 % 16),
   hexDigitChar (n / 16 % 16), hexDigitChar (n % 16)]

def escChar (c : Char) : List Char :=
  if c == '"' then ['\\', '"']
  else if c == '\\' then ['\\', '\\']
  else if c == '\n' then ['\\', 'n']
  else if c == '\t' then ['\\', 't']
  else if c == '\r' then ['\\', 'r']
  else if c == '\x08' then ['\\', 'b']
  else if c == '\x0c' then ['\\', 'f']
  else if c.toNat < 0x20 then '\\' :: 'u' :: hex4 c.toNat
  else if c.toNat < 0x7f then [c]
  else if c.toNat < 0x10000 then '\\' :: 'u' :: hex4 c.toNat
  else
    ('\\' :: 'u' :: hex4 (0xD800 + (c.toNat - 0x10000) / 1024)) ++
    ('\\' :: 'u' :: hex4 (0xDC00 + (c.toNat - 0x10000) % 1024))

def escList (cs : List Char) : List Char := cs.foldr (fun c r => escChar c ++ r) []

def quoteStr (s : String) : List Char := '"' :: (escList s.data ++ ['"'])

def dumpsItem (p : String × String) : List Char :=
  quoteStr p.1 ++ ':' :: ' ' :: quoteStr p.2

def dumpsTail (ps : List (String × String)) : List Char :=
  (ps.foldr (fun p r => ',' :: '\n' :: ' ' :: ' ' :: dumpsItem p ++ r) []) ++
  ['\n', '\x7d']

/-- `json.dumps(m, indent=2)` for a string-valued dict `m`. -/
def dumps (m : List (String × String)) : String :=
  match m with
  | [] => ⟨['\x7b', '\x7d']⟩
  | p :: ps => ⟨'\x7b' :: '\n' :: ' ' :: ' ' :: (dumpsItem p ++ dumpsTail ps)⟩

/-- Folding `objInsert` over a string-valued pair list, as the parser does when
it rebuilds an object from serialized members. -/
def insertAllStr (acc : List (String × Json)) (m : List (String × String)) :
    List (String × Json) :=
  m.foldl (fun a p => objInsert a p.1 (Json.str p.2)) acc

/-! ### `ai._strip_code_fences`, `ai._parse_json_safely`

```python
def _strip_code_fences(text: str) -> str:
    text = re.sub(r'^```[a-zA-Z]*\n?', '', text)
    text = re.sub(r'```$', '', text.strip())
    return text.strip()
```
The first pattern is anchored at the start of the string (no MULTILINE), so
at most one occurrence is removed; the second can only match at the very end
of the already-stripped text. -/

def isAsciiLetter (c : Char) : Bool :=
  ('a' ≤ c && c ≤ 'z') || ('A' ≤ c && c ≤ 'Z')

def dropLeadFence (cs : List Char) : List Char :=
  if leadsWith ['`', '`', '`'] cs then
    match (cs.drop 3).dropWhile isAsciiLetter with
    | '\n' :: rest => rest
    | rest => rest
  else cs

def dropTrailFence (cs : List Char) : List Char :=
  if leadsWith ['`', '`', '`'] cs.reverse then (cs.reverse.drop 3).reverse
  else cs

def stripCodeFences (s : String) : String :=
  ⟨stripChars (dropTrailFence (stripChars (dropLeadFence s.data)))⟩

/--
```python
def _parse_json_safely(text: str) -> dict:
    text = _strip_code_fences(text.strip())
    try:
        parsed = json.loads(text)
        if isinstance(parsed, dict):
            return parsed
        return {}
    except json.JSONDecodeError:
        return {}
```
Returns the members of the parsed top-level object, or the empty dict when
the parse fails or the result is not a dict. -/
def parseJsonSafely (text : String) : List (String × Json) :=
  match loads (stripCodeFences (pyStrip text)) with
  | some (Json.obj kvs) => kvs
  | _ => []

/-! ### `ai._normalize_code_snippet`

```python
def _normalize_code_snippet(parsed: dict) -> dict:
    if not isinstance(parsed, dict):
        return {}
    if "name" in parsed and "arguments" in parsed:
        args = parsed["arguments"]
        if "filename" in args and "content" in args:
            filename = args["filename"]
            content = args["content"]
            if isinstance(filename, str) and isinstance(content, str):
                return {filename: content}
        return {}
    final_dict = {}
    for k, v in parsed.items():
        if isinstance(k, str) and isinstance(v, str):
            final_dict[k] = v
    return final_dict
```
`args` is whatever `parsed["arguments"]` holds; Python's `"filename" in args`
raises `TypeError` when `args` is an `int`, `float`, `bool` or `None`, is a
substring test when `args` is a `str`, and is element membership when `args`
is a `list`; `args["filename"]` then raises `TypeError` on a `str` or `list`.
The embedding returns `Except PyErr` to record exactly these raises.  Keys of
`parsed` coming out of `json.loads` are always `str`, so the
`isinstance(k, str)` test in the fallback loop is always true here. -/

inductive PyErr where
  | typeError : PyErr
  | keyError : PyErr
deriving DecidableEq

def hasKey (kvs : List (String × Json)) (k : String) : Bool :=
  kvs.any (fun p => p.1 == k)

def objLookup (kvs : List (String × Json)) (k : String) : Option Json :=
  (kvs.find? (fun p => p.1 == k)).map (fun p => p.2)

/-- Python `"needle" in args` for a JSON-decoded value `args`. -/
def pyContains (needle : String) : Json → Except PyErr Bool
  | Json.obj kvs => .ok (hasKey kvs needle)
  | Json.str s => .ok (strContains s needle)
  | Json.arr xs => .ok (xs.contains (Json.str needle))
  | _ => .error .typeError

/-- Python `args["key"]` for a JSON-decoded value `args`. -/
def pyIndex (j : Json) (key : String) : Except PyErr Json :=
  match j with
  | Json.obj kvs =>
    match objLookup kvs key with
    | some v => .ok v
    | none => .error .keyError
  | _ => .error .typeError

def normSnippet (parsed : List (String × Json)) :
    Except PyErr (List (String × String)) :=
  if hasKey parsed "name" && hasKey parsed "arguments" then
    match objLookup parsed "arguments" with
    | none => .error .keyError
    | some args => do
      let hasFn ← pyContains "filename" args
      if hasFn then do
        let hasCt ← pyContains "content" args
        if hasCt then do
          let fn ← pyIndex args "filename"
          let ct ← pyIndex args "content"
          match fn, ct with
          | Json.str a, Json.str b => pure [(a, b)]
          | _, _ => pure []
        else pure []
      else pure []
  else
    pure (parsed.filterMap (fun kv =>
      match kv.2 with
      | Json.str s => some (kv.1, s)
      | _ => none))

/-- The normalisation chain the generation client applies to a raw reply:
`_normalize_code_snippet(_parse_json_safely(text))`. -/
def normalize (text : String) : Except PyErr (List (String × String)) :=
  normSnippet (parseJsonSafely text)

/-! ### Container driver (`orchestrator.docker_run_script_check`,
`orchestrator.docker_run_server_check_host`, `orchestrator._grab_container_logs`)

Each docker subprocess invocation is recorded as a `DockerEv` in program
order, and the answers the docker runtime gives (decoded stdout/stderr of
each command, the HTTP probe outcome) are supplied by a world record.  The
`asyncio.sleep` settle intervals (6s in script mode, 12s in server mode) are
real-time behaviour outside the embedding; the world's inspect answers are
understood as the state after the corresponding sleep. -/

inductive DockerEv where
  | runCmd (cmd : String) : DockerEv
  | logsCmd (id : String) : DockerEv
  | inspectRunning (id : String) : DockerEv
  | inspectExit (id : String) : DockerEv
  | rmCmd (id : String) : DockerEv
  | httpGet (port : Nat) : DockerEv
deriving DecidableEq

/-- Answers of the docker runtime to the commands `docker_run_script_check`
issues, in order: `docker run -d`, first `docker logs`, `docker inspect
.State.Running`, second `docker logs`, `docker inspect .State.ExitCode`. -/
structure ScriptWorld where
  runOut : String
  runErr : String
  logsOut1 : String
  logsErr1 : String
  runningOut : String
  logsOut2 : String
  logsErr2 : String
  exitOut : String

/-- `_grab_container_logs`: combined stdout+stderr of `docker logs`,
stripped. -/
def grabContainerLogs (out err : String) : String := pyStrip (out ++ err)

def scriptRunCmdStr : String :=
  "docker run -d --name ephemeral-test-container ephemeral-test-image"

def docker_run_script_check (w : ScriptWorld) :
    (Bool × String) × List DockerEv :=
  let container_id := pyStrip w.runOut
  let error_text := pyStrip w.runErr
  if container_id == "" then
    ((false, "Container run error:\n" ++ error_text), [.runCmd scriptRunCmdStr])
  else
    let initial_logs := grabContainerLogs w.logsOut1 w.logsErr1
    let is_running := pyStrip w.runningOut
    let final_logs := grabContainerLogs w.logsOut2 w.logsErr2
    let logs_combined :=
      "Immediate Logs:\n" ++ initial_logs ++ "\n\nFinal Logs:\n" ++ final_logs
    let evs : List DockerEv :=
      [.runCmd scriptRunCmdStr, .logsCmd container_id,
       .inspectRunning container_id, .logsCmd container_id,
       .rmCmd container_id]
    if pyLower is_running == "true" then
      ((false, "Script is still running after 6s.\n" ++ logs_combined), evs)
    else
      let exit_code := pyStrip w.exitOut
      if exit_code == "0" then
        ((true, "Container exited code 0.\n" ++ logs_combined),
          evs ++ [.inspectExit container_id])
      else
        ((false, "Container exited code " ++ exit_code ++ ".\n" ++ logs_combined),
          evs ++ [.inspectExit container_id])

/-- Answers for `docker_run_server_check_host`: the randomly drawn host port,
the run/logs/inspect outputs, and the outcome of
`requests.get(f"http://127.0.0.1:{port}", timeout=4)` — either a status code
or a raised exception rendered as its `str(e)` text. -/
structure ServerWorld where
  hostPort : Nat
  runOut : String
  runErr : String
  logsOut1 : String
  logsErr1 : String
  runningOut : String
  logsOut2 : String
  logsErr2 : String
  httpResult : Except String Nat

def serverRunCmdStr (port : Nat) : String :=
  "docker run -d --name ephemeral-test-container -p " ++ toString port ++
  ":5000 ephemeral-test-image"

def docker_run_server_check_host (w : ServerWorld) :
    (Bool × String) × List DockerEv :=
  let container_id := pyStrip w.runOut
  let error_text := pyStrip w.runErr
  if container_id == "" then
    ((false, "Container run error:\n" ++ error_text),
      [.runCmd (serverRunCmdStr w.hostPort)])
  else
    let initial_logs := grabContainerLogs w.logsOut1 w.logsErr1
    let is_running := pyStrip w.runningOut
    let final_logs := grabContainerLogs w.logsOut2 w.logsErr2
    let logs_combined :=
      "Immediate Logs:\n" ++ initial_logs ++ "\n\nFinal Logs:\n" ++ final_logs
    let evs : List DockerEv :=
      [.runCmd (serverRunCmdStr w.hostPort), .logsCmd container_id,
       .inspectRunning container_id, .logsCmd container_id]
    if pyLower is_running != "true" then
      ((false, "Container exited unexpectedly.\n" ++ logs_combined),
        evs ++ [.rmCmd container_id])
    else
      match w.httpResult with
      | .ok 200 =>
        ((true, "Received HTTP 200 from container on port " ++
            toString w.hostPort ++ "\n" ++ logs_combined),
          evs ++ [.httpGet w.hostPort, .rmCmd container_id])
      | .ok sc =>
        ((false, "Health check failed: " ++ toString sc ++ "\n" ++ logs_combined),
          evs ++ [.httpGet w.hostPort, .rmCmd container_id])
      | .error e =>
        ((false, "Error making HTTP request: " ++ e ++ "\n" ++ logs_combined),
          evs ++ [.httpGet w.hostPort, .rmCmd container_id])

/-! ### `orchestrator.write_code_to_directory`

```python
def write_code_to_directory(code_snippets: dict, build_dir: str):
    shutil.rmtree(build_dir, ignore_errors=True)  # (shutil imported locally)
    os.makedirs(build_dir, exist_ok=True)
    for filename, content in code_snippets.items():
        file_path = os.path.join(build_dir, filename)
        os.makedirs(os.path.dirname(file_path), exist_ok=True)
        with open(file_path, "w", encoding="utf-8") as f:
            f.write(content)
```
Modelled as the ordered list of filesystem operations performed.  The
function performs no validation of the keys: `os.path.join(base, p)` discards
`base` entirely when `p` is absolute, and never normalises `..` segments. -/

inductive FsOp where
  | rmtreeDir (p : String) : FsOp
  | makeDirs (p : String) : FsOp
  | writeFile (path content : String) : FsOp
deriving DecidableEq

/-- `os.path.join(base, p)` for the shapes that occur here (one component,
`base` without a trailing slash): an absolute `p` replaces `base`. -/
def osPathJoin (base p : String) : String :=
  if leadsWith ['/'] p.data then p else base ++ "/" ++ p

/-- `os.path.dirname` (POSIX): everything before the final slash, with
trailing slashes of the head stripped unless the head is all slashes. -/
def osPathDirname (p : String) : String :=
  let cs := p.data
  let i := cs.length - (cs.reverse.takeWhile (fun c => c != '/')).length
  let head := cs.take i
  if head.isEmpty then ""
  else if head.all (fun c => c == '/') then ⟨head⟩
  else ⟨(head.reverse.dropWhile (fun c => c == '/')).reverse⟩

def write_code_to_directory (code_snippets : List (String × String))
    (build_dir : String) : List FsOp :=
  .rmtreeDir build_dir :: .makeDirs build_dir ::
  (code_snippets.foldr (fun p r =>
    let file_path := osPathJoin build_dir p.1
    .makeDirs (osPathDirname file_path) :: .writeFile file_path p.2 :: r) [])

/-! ### `ai.call_ai_for_code_with_raw`, `ai.fix_code_with_logs`,
`orchestrator.run_deployment_pipeline`

The pipeline is a state machine over the deployment record persisted in the
store.  External answers are supplied by per-iteration oracle records:
the outcome of each provider call (`.ok rawText`, or `.error detail` for a
raised `HTTPException` — e.g. ai.py wraps any Ollama failure as
`"Ollama multi-turn error: " + str(e)` before raising), whether the
conversation document was found, the outcome of materialisation, and the
build/run results.  Every observable action (log append, field update,
conversation append, docker build/run attempt) is recorded as a `PipeEv` in
program order. -/

inductive PyExc where
  | httpExc (detail : String) : PyExc
  | typeExc : PyExc
  | keyExc : PyExc
deriving DecidableEq

def liftPyErr : PyErr → PyExc
  | .typeError => .typeExc
  | .keyError => .keyExc

/-- The detail text `ai._ollama_generate_multiturn` gives the `HTTPException`
it raises when the provider call fails. -/
def ollamaMultiturnErrText (detail : String) : String :=
  "Ollama multi-turn error: " ++ detail

/-- `call_ai_for_code_with_raw`, given the outcomes of the (at most two)
provider calls it makes: normalize attempt 1; if unusable, normalize the
corrective attempt 2; if still unusable return the empty mapping with both
transcripts.  A provider exception or a `TypeError` from the normalizer
propagates. -/
def call_ai_for_code_with_raw (a1 a2 : Except String String) :
    Except PyExc (List (String × String) × List String) :=
  match a1 with
  | .error e => .error (.httpExc e)
  | .ok raw1 =>
    match normalize raw1 with
    | .error pe => .error (liftPyErr pe)
    | .ok m1 =>
      if !m1.isEmpty then .ok (m1, [raw1])
      else
        match a2 with
        | .error e => .error (.httpExc e)
        | .ok raw2 =>
          match normalize raw2 with
          | .error pe => .error (liftPyErr pe)
          | .ok m2 =>
            if !m2.isEmpty then .ok (m2, [raw1, raw2])
            else .ok ([], [raw1, raw2])

inductive PipeEv where
  | logLine (s : String) : PipeEv
  | setStatus (s : String) : PipeEv
  | setIteration (n : Nat) : PipeEv
  | addMessage (content : String) : PipeEv
  | buildAttempt : PipeEv
  | runAttempt (script : Bool) : PipeEv
deriving DecidableEq

/-- The enumerated raw-transcript log lines
(`f"Raw AI attempt #{i}:\n{txt}"`, 1-based). -/
def rawLogs (pre : String) (raws : List String) : List PipeEv :=
  raws.enum.map (fun p =>
    .logLine (pre ++ toString (p.1 + 1) ++ ":\n" ++ p.2))

/-- Plan-step effects: a non-empty (stripped) plan is logged and appended to
the conversation; an empty plan is skipped. -/
def planEvs (planText : String) (n : Nat) : List PipeEv :=
  if planText == "" then []
  else
    [.logLine ("AI Plan (Iteration " ++ toString n ++ "):\n" ++ planText),
     .addMessage planText]

/-- Python `dict ==` on string-valued dicts with unique keys (every dict the
pipeline compares comes from the normalizer, whose output has unique keys):
same key set, same value at each key. -/
def lookupStr (m : List (String × String)) (k : String) : Option String :=
  (m.find? (fun p => p.1 == k)).map (fun p => p.2)

def dictEqB (a b : List (String × String)) : Bool :=
  a.all (fun p => lookupStr b p.1 == some p.2) &&
  b.all (fun p => lookupStr a p.1 == some p.2)

/-- The deployment record fields the pipeline reads or writes. -/
structure Deployment where
  status : String
  iteration : Nat
  max_iterations : Nat
  app_type : String
deriving DecidableEq

/-- Oracle for one `fix_code_with_logs` call: was the conversation document
found, and the outcomes of the two provider attempts of its inner
`call_ai_for_code_with_raw`. -/
structure FixOracle where
  conversationFound : Bool
  codeRaw1 : Except String String
  codeRaw2 : Except String String

def fix_code_with_logs (o : FixOracle) : Except PyExc Bool × List PipeEv :=
  if !o.conversationFound then
    (.ok false,
     [.logLine "Conversation not found; cannot fix code.", .setStatus "error"])
  else
    match call_ai_for_code_with_raw o.codeRaw1 o.codeRaw2 with
    | .error e => (.error e, [])
    | .ok (m, raws) =>
      if m.isEmpty then
        (.ok false,
         rawLogs "Raw AI fix attempt #" raws ++
           [.logLine "AI did not fix the error. Aborting.", .setStatus "error"])
      else
        (.ok true,
         [.addMessage (dumps m),
          .logLine "AI returned a code fix. Will try again next iteration."])

/-- Oracle for one iteration of the pipeline loop. -/
structure IterOracle where
  conversationFound : Bool
  planRaw : Except String String
  codeRaw1 : Except String String
  codeRaw2 : Except String String
  writeResult : Except String Unit
  buildOk : Bool
  buildLogs : String
  runOk : Bool
  runLogs : String
  fixO : FixOracle

inductive IterStep where
  | cont (last : List (String × String)) : IterStep
  | halt : IterStep
  | crash (e : PyExc) : IterStep

/-- One pass of the `while iteration < max_iterations` body of
`run_deployment_pipeline` (lines 50–159 of orchestrator.py), given the
iteration's oracle, the build directory path and the previous accepted
mapping (`last_code_snippets`). -/
def iterBody (o : IterOracle) (buildDir : String) (dep : Deployment)
    (last : Option (List (String × String))) :
    Deployment × List PipeEv × IterStep :=
  let n := dep.iteration + 1
  let dep := { dep with iteration := n }
  let evs0 : List PipeEv :=
    [.logLine ("Iteration #" ++ toString n ++ " started."), .setIteration n]
  if !o.conversationFound then
    ({ dep with status := "error" },
     evs0 ++ [.logLine "Conversation doc not found. Aborting orchestrator.",
              .setStatus "error"],
     .halt)
  else
    match o.planRaw with
    | .error e => (dep, evs0, .crash (.httpExc e))
    | .ok rawPlan =>
      let evs1 := evs0 ++ planEvs (pyStrip rawPlan) n
      match call_ai_for_code_with_raw o.codeRaw1 o.codeRaw2 with
      | .error e => (dep, evs1, .crash e)
      | .ok (m, raws) =>
        if m.isEmpty then
          ({ dep with status := "error" },
           evs1 ++ rawLogs "Raw AI attempt #" raws ++
             [.logLine "No code returned from AI. Aborting.", .setStatus "error"],
           .halt)
        else if (match last with | some m0 => dictEqB m m0 | none => false) then
          ({ dep with status := "error" },
           evs1 ++ [.logLine "AI returned the same code as last iteration. Aborting.",
                    .setStatus "error"],
           .halt)
        else
          let evs2 := evs1 ++ [.addMessage (dumps m)]
          match o.writeResult with
          | .error msg =>
            ({ dep with status := "error" },
             evs2 ++ [.logLine ("Error writing code: " ++ msg), .setStatus "error"],
             .halt)
          | .ok _ =>
            let evs3 := evs2 ++ [.logLine ("Code written to " ++ buildDir),
                                 .buildAttempt, .logLine o.buildLogs]
            if !o.buildOk then
              match fix_code_with_logs o.fixO with
              | (.error e, fevs) => (dep, evs3 ++ fevs, .crash e)
              | (.ok false, fevs) =>
                ({ dep with status := "error" }, evs3 ++ fevs, .halt)
              | (.ok true, fevs) => (dep, evs3 ++ fevs, .cont m)
            else
              let evs4 := evs3 ++ [.runAttempt (dep.app_type == "script"),
                                   .logLine o.runLogs]
              if !o.runOk then
                match fix_code_with_logs o.fixO with
                | (.error e, fevs) => (dep, evs4 ++ fevs, .crash e)
                | (.ok false, fevs) =>
                  ({ dep with status := "error" }, evs4 ++ fevs, .halt)
                | (.ok true, fevs) => (dep, evs4 ++ fevs, .cont m)
              else
                ({ dep with status := "success" },
                 evs4 ++ [.logLine "Deployment succeeded.", .setStatus "success"],
                 .halt)

/-- The pipeline's while loop.  Each pass increments the iteration counter by
exactly one, so the fuel supplied by `run_deployment_pipeline`
(`max_iterations - iteration + 1`) covers every pass the loop condition
admits; the fuel-exhausted branch is unreachable there. -/
def pipeLoop (o : Nat → IterOracle) (buildDir : String) :
    Nat → Deployment → Option (List (String × String)) → Nat →
    Deployment × List PipeEv × Option PyExc
  | 0, dep, _, _ => (dep, [], none)
  | fuel + 1, dep, last, k =>
    if dep.iteration < dep.max_iterations then
      match iterBody (o k) buildDir dep last with
      | (dep2, evs, .halt) => (dep2, evs, none)
      | (dep2, evs, .crash e) => (dep2, evs, some e)
      | (dep2, evs, .cont m) =>
        let r := pipeLoop o buildDir fuel dep2 (some m) (k + 1)
        (r.1, evs ++ r.2.1, r.2.2)
    else (dep, [], none)

structure PipeResult where
  dep : Deployment
  events : List PipeEv
  crash : Option PyExc
  workspaceRemoved : Bool

/-- `run_deployment_pipeline`: set status `in_progress`, run the loop, then
— only when no exception propagated — remove the build workspace
(`shutil.rmtree(build_dir, ignore_errors=True)`, not guarded by any
`try/finally`) and apply the final safety net (a final status outside
`success`/`error` is forced to `error`).  A propagating exception ends the
background task at once: nothing after the loop runs. -/
def run_deployment_pipeline (o : Nat → IterOracle) (buildDir : String)
    (dep0 : Deployment) : PipeResult :=
  let dep1 : Deployment :=
    ⟨"in_progress", dep0.iteration, dep0.max_iterations, dep0.app_type⟩
  let evs0 : List PipeEv := [.setStatus "in_progress"]
  let r := pipeLoop o buildDir (dep1.max_iterations - dep1.iteration + 1) dep1 none 0
  match r.2.2 with
  | some e =>
    { dep := r.1, events := evs0 ++ r.2.1, crash := some e,
      workspaceRemoved := false }
  | none =>
    if r.1.status != "success" && r.1.status != "error" then
      { dep := { r.1 with status := "error" },
        events := evs0 ++ r.2.1 ++
          [.logLine "Max iterations reached. Marking as error.",
           .setStatus "error"],
        crash := none, workspaceRemoved := true }
    else
      { dep := r.1, events := evs0 ++ r.2.1, crash := none,
        workspaceRemoved := true }

/-! ## Theorems -/

/-! ### String-containment helpers -/

theorem leadsWith_self_append (p rest : List Char) : leadsWith p (p ++ rest) = true := by
  induction p with
  | nil => rfl
  | cons c cs ih => simp [leadsWith, ih]

theorem occursIn_of_leadsWith (p l : List Char) (h : leadsWith p l = true) :
    occursIn p l = true := by
  cases l <;> simp_all [occursIn]

theorem occursIn_append_left (p : List Char) (a : List Char) (l : List Char)
    (h : occursIn p l = true) : occursIn p (a ++ l) = true := by
  induction a with
  | nil => simpa using h
  | cons c a ih => simp [occursIn, ih]

theorem strContains_parts (x y z : String) : strContains (x ++ (y ++ z)) y = true := by
  unfold strContains
  rw [String.data_append, String.data_append]
  exact occursIn_append_left _ _ _
    (occursIn_of_leadsWith _ _ (leadsWith_self_append _ _))

theorem strContains_of_split (s x y z : String) (h : s = x ++ (y ++ z)) :
    strContains s y = true := by
  rw [h]; exact strContains_parts x y z

theorem strContains_of_split2 (s x y : String) (h : s = x ++ y) :
    strContains s y = true := by
  refine strContains_of_split s x y "" ?_
  rw [h, String.append_empty]

/-! ### C1 — container disposal policy -/

/-- **C1.** The claim says that on a successful health check the launched
container is left running, its handle surfaced to the caller and recorded on
the deployment record, with force-removal only on failure (unless trouble
mode).  The code does the opposite: evaluated at a server-mode world whose
container `abc123` starts, stays running, and answers the HTTP probe with
200, the health check reports success *and* the driver has already issued
`docker rm -f abc123` — the container is removed even on success.  (The
driver returns only the `(ok, logText)` pair — there is no handle in its
return type to record, `run_deployment_pipeline` never writes
`container_id`, and neither run function reads the deployment's
`trouble_mode` flag.) -/
theorem C1_success_removes_container :
    (docker_run_server_check_host
        ⟨20123, "abc123\n", "", "booting", "", "true\n", "serving", "", .ok 200⟩).1.1
        = true ∧
    DockerEv.rmCmd "abc123" ∈
      (docker_run_server_check_host
        ⟨20123, "abc123\n", "", "booting", "", "true\n", "serving", "", .ok 200⟩).2 := by
  constructor
  · rfl
  · decide

/-! ### C4 — no pre-launch reclamation of the container name -/

/-- **C4 counterexample.** The claim says every container run first
force-removes any previous container sharing the reserved name before
launching.  In the code the very first docker invocation of
`docker_run_script_check` is the `docker run` itself, and no removal
addressed by the reserved name `ephemeral-test-container` ever occurs
(removals are by container id, after the check). -/
theorem C4_no_preremoval :
    (docker_run_script_check
        ⟨"abc123\n", "", "hello", "", "false\n", "hello", "", "0\n"⟩).2.head?
      = some (DockerEv.runCmd scriptRunCmdStr) ∧
    DockerEv.rmCmd "ephemeral-test-container" ∉
      (docker_run_script_check
        ⟨"abc123\n", "", "hello", "", "false\n", "hello", "", "0\n"⟩).2 := by
  constructor
  · rfl
  · decide

theorem server_run_trace_shape (w2 : ServerWorld) (h2 : pyStrip w2.runOut ≠ "") :
    (docker_run_server_check_host w2).2.head?
      = some (DockerEv.runCmd (serverRunCmdStr w2.hostPort)) ∧
    DockerEv.rmCmd (pyStrip w2.runOut) ∈ (docker_run_server_check_host w2).2 := by
  unfold docker_run_server_check_host
  by_cases hr : pyLower (pyStrip w2.runningOut) = "true"
  · simp only [h2, hr, beq_iff_eq, if_neg h2, bne_self_eq_false, Bool.false_eq_true,
      if_false]
    split <;> simp
  · simp [h2, hr]

/-- **C4 (amended).** In both modes the first docker invocation of a run is
the launch itself — nothing is force-removed before launching, and the
container name is the fixed global `ephemeral-test-container`, not a
per-deployment name.  Instead, any run that obtains a container id
force-removes that container (by id) after its health check, which is what
keeps stale containers from accumulating across iterations. -/
theorem C4_removal_after_check (w : ScriptWorld) (w2 : ServerWorld)
    (h : pyStrip w.runOut ≠ "") (h2 : pyStrip w2.runOut ≠ "") :
    (docker_run_script_check w).2.head? = some (.runCmd scriptRunCmdStr) ∧
    DockerEv.rmCmd (pyStrip w.runOut) ∈ (docker_run_script_check w).2 ∧
    (docker_run_server_check_host w2).2.head?
      = some (.runCmd (serverRunCmdStr w2.hostPort)) ∧
    DockerEv.rmCmd (pyStrip w2.runOut) ∈ (docker_run_server_check_host w2).2 := by
  refine ⟨?_, ?_, ?_, ?_⟩
  · by_cases hr : pyLower (pyStrip w.runningOut) = "true" <;>
      by_cases he : pyStrip w.exitOut = "0" <;>
      simp [docker_run_script_check, h, hr, he]
  · by_cases hr : pyLower (pyStrip w.runningOut) = "true" <;>
      by_cases he : pyStrip w.exitOut = "0" <;>
      simp [docker_run_script_check, h, hr, he]
  · exact (server_run_trace_shape w2 h2).1
  · exact (server_run_trace_shape w2 h2).2

/-- **C4 witness.** -/
theorem C4_removal_after_check_witness :
    pyStrip (ScriptWorld.runOut ⟨"abc123\n", "", "h", "", "false\n", "h", "", "0\n"⟩) ≠ "" ∧
    pyStrip (ServerWorld.runOut ⟨20123, "def456\n", "", "b", "", "true\n", "s", "", .ok 200⟩) ≠ "" ∧
    (DockerEv.rmCmd "abc123" ∈
      (docker_run_script_check ⟨"abc123\n", "", "h", "", "false\n", "h", "", "0\n"⟩).2 ∧
     DockerEv.rmCmd "def456" ∈
      (docker_run_server_check_host ⟨20123, "def456\n", "", "b", "", "true\n", "s", "", .ok 200⟩).2) := by
  refine ⟨by decide, by decide, ?_, ?_⟩
  · exact (C4_removal_after_check
      ⟨"abc123\n", "", "h", "", "false\n", "h", "", "0\n"⟩
      ⟨20123, "def456\n", "", "b", "", "true\n", "s", "", .ok 200⟩
      (by decide) (by decide)).2.1
  · exact (C4_removal_after_check
      ⟨"abc123\n", "", "h", "", "false\n", "h", "", "0\n"⟩
      ⟨20123, "def456\n", "", "b", "", "true\n", "s", "", .ok 200⟩
      (by decide) (by decide)).2.2.2

/-! ### C5 — script-mode health-check policy -/

/-- **C5.** For every script-mode run whose container started (non-empty
container id): if the container is still running after the 6-second settle
interval the check reports failure; otherwise it reports success exactly
when the inspected exit code is the string `"0"` (so exit code `"1"` is a
failure); and the returned log text contains both the immediate and the
final log captures. -/
theorem C5_script_check_policy (w : ScriptWorld) (h : pyStrip w.runOut ≠ "") :
    (pyLower (pyStrip w.runningOut) = "true" →
        (docker_run_script_check w).1.1 = false) ∧
    (pyLower (pyStrip w.runningOut) ≠ "true" →
        ((docker_run_script_check w).1.1 = true ↔ pyStrip w.exitOut = "0")) ∧
    strContains (docker_run_script_check w).1.2
      (grabContainerLogs w.logsOut1 w.logsErr1) = true ∧
    strContains (docker_run_script_check w).1.2
      (grabContainerLogs w.logsOut2 w.logsErr2) = true := by
  refine ⟨?_, ?_, ?_, ?_⟩
  · intro hr
    simp [docker_run_script_check, h, hr]
  · intro hr
    by_cases he : pyStrip w.exitOut = "0" <;>
      simp [docker_run_script_check, h, hr, he]
  · by_cases hr : pyLower (pyStrip w.runningOut) = "true"
    · simp only [docker_run_script_check, h, hr]
      refine strContains_of_split _
        ("Script is still running after 6s.\n" ++ "Immediate Logs:\n") _
        ("\n\nFinal Logs:\n" ++ grabContainerLogs w.logsOut2 w.logsErr2) ?_
      simp only [← String.append_assoc]
      simp [h]
    · by_cases he : pyStrip w.exitOut = "0"
      · simp only [docker_run_script_check, h, hr, he]
        refine strContains_of_split _
          ("Container exited code 0.\n" ++ "Immediate Logs:\n") _
          ("\n\nFinal Logs:\n" ++ grabContainerLogs w.logsOut2 w.logsErr2) ?_
        simp only [← String.append_assoc]
        simp [h, hr]
      · simp only [docker_run_script_check, h, hr, he]
        refine strContains_of_split _
          ("Container exited code " ++ pyStrip w.exitOut ++ ".\n" ++ "Immediate Logs:\n") _
          ("\n\nFinal Logs:\n" ++ grabContainerLogs w.logsOut2 w.logsErr2) ?_
        simp only [← String.append_assoc]
        simp [h, hr, he]
  · by_cases hr : pyLower (pyStrip w.runningOut) = "true"
    · simp only [docker_run_script_check, h, hr]
      refine strContains_of_split2 _
        ("Script is still running after 6s.\n" ++
          ("Immediate Logs:\n" ++ grabContainerLogs w.logsOut1 w.logsErr1 ++
            "\n\nFinal Logs:\n")) _ ?_
      simp only [← String.append_assoc]
      simp [h]
    · by_cases he : pyStrip w.exitOut = "0"
      · simp only [docker_run_script_check, h, hr, he]
        refine strContains_of_split2 _
          ("Container exited code 0.\n" ++
            ("Immediate Logs:\n" ++ grabContainerLogs w.logsOut1 w.logsErr1 ++
              "\n\nFinal Logs:\n")) _ ?_
        simp only [← String.append_assoc]
        simp [h, hr]
      · simp only [docker_run_script_check, h, hr, he]
        refine strContains_of_split2 _
          ("Container exited code " ++ pyStrip w.exitOut ++ ".\n" ++
            ("Immediate Logs:\n" ++ grabContainerLogs w.logsOut1 w.logsErr1 ++
              "\n\nFinal Logs:\n")) _ ?_
        simp only [← String.append_assoc]
        simp [h, hr, he]

/-- **C5 witness**: a container that exited with code 1 — the check reports
failure, and both log captures appear in the returned text. -/
theorem C5_script_check_policy_witness :
    pyStrip (ScriptWorld.runOut ⟨"cid9\n", "", "boom", "", "false\n", "trace", "", "1\n"⟩) ≠ "" ∧
    ((pyLower (pyStrip (ScriptWorld.runningOut ⟨"cid9\n", "", "boom", "", "false\n", "trace", "", "1\n"⟩)) = "true" →
        (docker_run_script_check ⟨"cid9\n", "", "boom", "", "false\n", "trace", "", "1\n"⟩).1.1 = false) ∧
     (pyLower (pyStrip (ScriptWorld.runningOut ⟨"cid9\n", "", "boom", "", "false\n", "trace", "", "1\n"⟩)) ≠ "true" →
        ((docker_run_script_check ⟨"cid9\n", "", "boom", "", "false\n", "trace", "", "1\n"⟩).1.1 = true ↔
          pyStrip (ScriptWorld.exitOut ⟨"cid9\n", "", "boom", "", "false\n", "trace", "", "1\n"⟩) = "0")) ∧
     strContains (docker_run_script_check ⟨"cid9\n", "", "boom", "", "false\n", "trace", "", "1\n"⟩).1.2
       (grabContainerLogs "boom" "") = true ∧
     strContains (docker_run_script_check ⟨"cid9\n", "", "boom", "", "false\n", "trace", "", "1\n"⟩).1.2
       (grabContainerLogs "trace" "") = true) :=
  ⟨by decide, C5_script_check_policy ⟨"cid9\n", "", "boom", "", "false\n", "trace", "", "1\n"⟩ (by decide)⟩

/-! ### C6 — the normalizer can raise -/

/-- **C6.** The claim says `normalize` never raises and returns the empty
mapping on any unrecognised shape.  Evaluated at the input
`{"name": "f", "arguments": 1}` (which `json.loads` parses fine), the
tool-call recognizer executes `"filename" in args` with `args = 1`, and
Python raises `TypeError: argument of type 'int' is not iterable` — the
embedding returns that raise instead of a mapping. -/
theorem C6_normalize_raises :
    normalize "\x7b\"name\": \"f\", \"arguments\": 1\x7d" = .error .typeError := by
  rfl

/-! ### C10 — materialization does not confine writes -/

/-- **C10.** `write_code_to_directory` performs no validation of mapping
keys: for any mapping containing an absolute-path key `k`,
`os.path.join(build_dir, k)` discards the build directory entirely and the
file is written at `k` itself, with no error raised (the model is total:
the full operation list is produced).  Whenever `k` is not under the build
directory — as in the witness, `/etc/passwd` against `/tmp/build_x` — the
write lands outside it. -/
theorem C10_absolute_key_escapes (build_dir : String)
    (m : List (String × String)) (k v : String)
    (hmem : (k, v) ∈ m) (habs : leadsWith ['/'] k.data = true) :
    osPathJoin build_dir k = k ∧
    FsOp.writeFile k v ∈ write_code_to_directory m build_dir := by
  have hj : osPathJoin build_dir k = k := by simp [osPathJoin, habs]
  refine ⟨hj, ?_⟩
  unfold write_code_to_directory
  refine List.mem_cons_of_mem _ (List.mem_cons_of_mem _ ?_)
  induction m with
  | nil => cases hmem
  | cons p ps ih =>
    rcases List.mem_cons.mp hmem with h | h
    · subst h
      simp [hj]
    · simp only [List.foldr_cons]
      exact List.mem_cons_of_mem _ (List.mem_cons_of_mem _ (ih h))

/-- **C10 witness**: the mapping `{"/etc/passwd": "pwned"}` materialised
into `/tmp/build_x` writes `/etc/passwd`, which is not under the build
directory. -/
theorem C10_absolute_key_escapes_witness :
    ("/etc/passwd", "pwned") ∈ [("/etc/passwd", "pwned")] ∧
    leadsWith ['/'] "/etc/passwd".data = true ∧
    (osPathJoin "/tmp/build_x" "/etc/passwd" = "/etc/passwd" ∧
     FsOp.writeFile "/etc/passwd" "pwned" ∈
       write_code_to_directory [("/etc/passwd", "pwned")] "/tmp/build_x") ∧
    leadsWith "/tmp/build_x".data "/etc/passwd".data = false :=
  ⟨by decide, by decide,
   C10_absolute_key_escapes "/tmp/build_x" [("/etc/passwd", "pwned")]
     "/etc/passwd" "pwned" (by decide) (by decide),
   by decide⟩


/-! ### Pipeline lemmas (C2, C3, C8, C9) -/

/-! ### Pipeline event-shape helpers -/

theorem rawLogs_only_logLines (pre : String) (raws : List String) (e : PipeEv)
    (h : e ∈ rawLogs pre raws) : ∃ s, e = PipeEv.logLine s := by
  simp only [rawLogs, List.mem_map] at h
  obtain ⟨p, _, rfl⟩ := h
  exact ⟨_, rfl⟩

theorem setIteration_notin_rawLogs (pre : String) (raws : List String) (n : Nat) :
    PipeEv.setIteration n ∉ rawLogs pre raws := by
  intro h
  obtain ⟨s, hs⟩ := rawLogs_only_logLines _ _ _ h
  simp at hs

theorem setIteration_notin_planEvs (p : String) (k n : Nat) :
    PipeEv.setIteration n ∉ planEvs p k := by
  unfold planEvs
  split <;> simp

theorem setIteration_notin_fixEvs (fo : FixOracle) (n : Nat) :
    PipeEv.setIteration n ∉ (fix_code_with_logs fo).2 := by
  unfold fix_code_with_logs
  split
  · simp
  · split
    · simp
    · split <;> simp [setIteration_notin_rawLogs]

theorem setStatus_notin_planEvs (p : String) (k : Nat) (s : String) :
    PipeEv.setStatus s ∉ planEvs p k := by
  unfold planEvs
  split <;> simp

theorem planEvs_count_buildAttempt (p : String) (k : Nat) :
    (planEvs p k).count PipeEv.buildAttempt = 0 := by
  unfold planEvs
  split <;> simp

theorem iterBody_iteration (o : IterOracle) (bd : String) (dep : Deployment)
    (last : Option (List (String × String))) :
    (iterBody o bd dep last).1.iteration = dep.iteration + 1 ∧
    (iterBody o bd dep last).1.max_iterations = dep.max_iterations := by
  unfold iterBody
  repeat' split
  all_goals simp

theorem iterBody_setIteration (o : IterOracle) (bd : String) (dep : Deployment)
    (last : Option (List (String × String))) (n : Nat)
    (h : PipeEv.setIteration n ∈ (iterBody o bd dep last).2.1) :
    n = dep.iteration + 1 := by
  have hnot := setIteration_notin_fixEvs o.fixO n
  rcases hfe : fix_code_with_logs o.fixO with ⟨fr, fevs⟩
  rw [hfe] at hnot
  unfold iterBody at h
  repeat' split at h
  all_goals
    simp_all [setIteration_notin_planEvs, setIteration_notin_rawLogs]

/-! ### Characterisations of generation, repair, and single iterations -/

theorem call_ai_ok (a1 a2 : Except String String) (r1 : String)
    (M : List (String × String)) (h1 : a1 = .ok r1)
    (hn : normalize r1 = .ok M) (hM : M ≠ []) :
    call_ai_for_code_with_raw a1 a2 = .ok (M, [r1]) := by
  have hMe : M.isEmpty = false := by
    cases M with | nil => exact absurd rfl hM | cons a t => rfl
  unfold call_ai_for_code_with_raw
  rw [h1]
  simp [hn, hMe]

theorem fix_ok_result (fo : FixOracle) (g : String) (F : List (String × String))
    (hcv : fo.conversationFound = true) (h1 : fo.codeRaw1 = .ok g)
    (hn : normalize g = .ok F) (hF : F ≠ []) :
    fix_code_with_logs fo =
      (.ok true,
       [.addMessage (dumps F),
        .logLine "AI returned a code fix. Will try again next iteration."]) := by
  have hFe : F.isEmpty = false := by
    cases F with | nil => exact absurd rfl hF | cons a t => rfl
  unfold fix_code_with_logs
  rw [call_ai_ok _ _ _ _ h1 hn hF]
  simp [hcv, hFe]

theorem iterBody_cont (o : IterOracle) (bd : String) (dep : Deployment)
    (last : Option (List (String × String))) (p r1 g : String)
    (m F : List (String × String))
    (hcv : o.conversationFound = true)
    (hplan : o.planRaw = .ok p)
    (hc1 : o.codeRaw1 = .ok r1)
    (hn : normalize r1 = .ok m)
    (hm : m ≠ [])
    (hguard : (match last with | some m0 => dictEqB m m0 | none => false) = false)
    (hw : o.writeResult = .ok ())
    (hb : o.buildOk = false)
    (hfcv : o.fixO.conversationFound = true)
    (hf1 : o.fixO.codeRaw1 = .ok g)
    (hfn : normalize g = .ok F)
    (hF : F ≠ []) :
    ∃ evs, iterBody o bd dep last =
      ({ dep with iteration := dep.iteration + 1 }, evs, .cont m) ∧
      evs.count PipeEv.buildAttempt = 1 ∧
      ∀ s, PipeEv.setStatus s ∉ evs := by
  have hMe : m.isEmpty = false := by
    cases m with | nil => exact absurd rfl hm | cons a t => rfl
  unfold iterBody
  rw [hplan, hw, hb, call_ai_ok _ _ _ _ hc1 hn hm,
    fix_ok_result o.fixO g F hfcv hf1 hfn hF]
  simp only [hcv, Bool.not_true, Bool.false_eq_true, if_false, hMe, hguard,
    Bool.not_false, if_true]
  refine ⟨_, rfl, ?_, ?_⟩
  · simp [List.count_append, planEvs_count_buildAttempt]
  · intro s
    simp [setStatus_notin_planEvs]

theorem iterBody_stagnation (o : IterOracle) (bd : String) (dep : Deployment)
    (last : Option (List (String × String))) (p r1 : String)
    (m m0 : List (String × String))
    (hcv : o.conversationFound = true)
    (hplan : o.planRaw = .ok p)
    (hc1 : o.codeRaw1 = .ok r1)
    (hn : normalize r1 = .ok m)
    (hm : m ≠ [])
    (hlast : last = some m0)
    (heq : dictEqB m m0 = true) :
    ∃ evs, iterBody o bd dep last =
      ({ dep with iteration := dep.iteration + 1, status := "error" }, evs, .halt) ∧
      evs.count PipeEv.buildAttempt = 0 ∧
      PipeEv.setStatus "success" ∉ evs := by
  have hMe : m.isEmpty = false := by
    cases m with | nil => exact absurd rfl hm | cons a t => rfl
  subst hlast
  unfold iterBody
  rw [hplan, call_ai_ok _ _ _ _ hc1 hn hm]
  simp only [hcv, Bool.not_true, Bool.false_eq_true, if_false, hMe, heq, if_true]
  refine ⟨_, rfl, ?_, ?_⟩
  · simp [List.count_append, planEvs_count_buildAttempt]
  · simp [setStatus_notin_planEvs]

/-! ### The loop invariant: recorded iteration counts never exceed the maximum -/

theorem pipeLoop_invariant (o : Nat → IterOracle) (bd : String) :
    ∀ (fuel : Nat) (dep : Deployment) (last : Option (List (String × String)))
      (k : Nat), dep.iteration ≤ dep.max_iterations →
      ((pipeLoop o bd fuel dep last k).1.iteration ≤
          (pipeLoop o bd fuel dep last k).1.max_iterations ∧
       (pipeLoop o bd fuel dep last k).1.max_iterations = dep.max_iterations ∧
       ∀ n, PipeEv.setIteration n ∈ (pipeLoop o bd fuel dep last k).2.1 →
         n ≤ dep.max_iterations) := by
  intro fuel
  induction fuel with
  | zero =>
    intro dep last k h
    refine ⟨h, rfl, ?_⟩
    intro n hn
    simp [pipeLoop] at hn
  | succ fuel ih =>
    intro dep last k h
    by_cases hc : dep.iteration < dep.max_iterations
    · rcases hib : iterBody (o k) bd dep last with ⟨dep2, rest⟩
      rcases rest with ⟨evs, st⟩
      have h1 := (iterBody_iteration (o k) bd dep last).1
      have h2 := (iterBody_iteration (o k) bd dep last).2
      rw [hib] at h1 h2
      simp only at h1 h2
      have hsi : ∀ n, PipeEv.setIteration n ∈ evs → n = dep.iteration + 1 := by
        intro n hn
        exact iterBody_setIteration (o k) bd dep last n (by rw [hib]; exact hn)
      cases st with
      | halt =>
        simp only [pipeLoop, if_pos hc, hib]
        refine ⟨by omega, by omega, ?_⟩
        intro n hn
        have := hsi n hn
        omega
      | crash e =>
        simp only [pipeLoop, if_pos hc, hib]
        refine ⟨by omega, by omega, ?_⟩
        intro n hn
        have := hsi n hn
        omega
      | cont m =>
        have hrec := ih dep2 (some m) (k + 1) (by omega)
        simp only [pipeLoop, if_pos hc, hib]
        refine ⟨hrec.1, by rw [hrec.2.1]; omega, ?_⟩
        intro n hn
        rcases List.mem_append.mp hn with hn | hn
        · have := hsi n hn; omega
        · have := hrec.2.2 n hn
          omega
    · simp [pipeLoop, hc, h]


theorem lookupStr_mem_of_nodup (m : List (String × String)) (k v : String)
    (hnd : (m.map Prod.fst).Nodup) (hm : (k, v) ∈ m) : lookupStr m k = some v := by
  induction m with
  | nil => cases hm
  | cons q t ih =>
    rw [List.map_cons] at hnd
    obtain ⟨hn1, hn2⟩ := List.nodup_cons.mp hnd
    rcases List.mem_cons.mp hm with h | h
    · rw [← h]
      simp [lookupStr, List.find?]
    · have hk : (q.1 == k) = false := by
        rw [beq_eq_false_iff_ne]
        intro he
        exact hn1 (he ▸ List.mem_map.mpr ⟨(k, v), h, rfl⟩)
      simp only [lookupStr, List.find?, hk]
      exact ih hn2 h

theorem dictEqB_refl (m : List (String × String))
    (hnd : (m.map Prod.fst).Nodup) : dictEqB m m = true := by
  unfold dictEqB
  rw [Bool.and_eq_true]
  constructor <;>
  · rw [List.all_eq_true]
    intro p hp
    rw [lookupStr_mem_of_nodup m p.1 p.2 hnd hp]
    simp

/-! ### Single-step evaluation lemmas for the loop -/

theorem pipeLoop_succ_cont (o : Nat → IterOracle) (bd : String) (fuel : Nat)
    (dep : Deployment) (last : Option (List (String × String))) (k : Nat)
    (dep2 : Deployment) (evs : List PipeEv) (m : List (String × String))
    (r : Deployment × List PipeEv × Option PyExc)
    (hc : dep.iteration < dep.max_iterations)
    (hib : iterBody (o k) bd dep last = (dep2, evs, .cont m))
    (hrec : pipeLoop o bd fuel dep2 (some m) (k + 1) = r) :
    pipeLoop o bd (fuel + 1) dep last k = (r.1, evs ++ r.2.1, r.2.2) := by
  simp only [pipeLoop, if_pos hc, hib, hrec]

theorem pipeLoop_succ_halt (o : Nat → IterOracle) (bd : String) (fuel : Nat)
    (dep : Deployment) (last : Option (List (String × String))) (k : Nat)
    (dep2 : Deployment) (evs : List PipeEv)
    (hc : dep.iteration < dep.max_iterations)
    (hib : iterBody (o k) bd dep last = (dep2, evs, .halt)) :
    pipeLoop o bd (fuel + 1) dep last k = (dep2, evs, none) := by
  simp only [pipeLoop, if_pos hc, hib]

theorem pipeLoop_succ_crash (o : Nat → IterOracle) (bd : String) (fuel : Nat)
    (dep : Deployment) (last : Option (List (String × String))) (k : Nat)
    (dep2 : Deployment) (evs : List PipeEv) (e : PyExc)
    (hc : dep.iteration < dep.max_iterations)
    (hib : iterBody (o k) bd dep last = (dep2, evs, .crash e)) :
    pipeLoop o bd (fuel + 1) dep last k = (dep2, evs, some e) := by
  simp only [pipeLoop, if_pos hc, hib]

theorem pipeLoop_stop (o : Nat → IterOracle) (bd : String) (fuel : Nat)
    (dep : Deployment) (last : Option (List (String × String))) (k : Nat)
    (hc : ¬ dep.iteration < dep.max_iterations) :
    pipeLoop o bd fuel dep last k = (dep, [], none) := by
  cases fuel <;> simp [pipeLoop, hc]

/-- **C8.** Stagnation guard: starting from a fresh deployment, when iteration 1
accepts a mapping `M` (build fails, repair succeeds) and iteration 2's
generation returns the byte-for-byte identical mapping `M` again, the
pipeline transitions the deployment to `error` on that second iteration
without attempting a build there: the whole run performs exactly one build
attempt, ends with status `error`, iteration 2, and no crash.  (`M` has
unique keys, as every mapping produced by the normalizer does.) -/
theorem C8_stagnation_guard (o : Nat → IterOracle) (bd : String) (st ap : String) (mx : Nat)
    (p0 p1 r0 r1 g0 : String) (M F : List (String × String))
    (hmx : 2 ≤ mx)
    (hnd : (M.map Prod.fst).Nodup)
    (hcv0 : (o 0).conversationFound = true)
    (hpl0 : (o 0).planRaw = .ok p0)
    (hcr0 : (o 0).codeRaw1 = .ok r0)
    (hn0 : normalize r0 = .ok M)
    (hM : M ≠ [])
    (hw0 : (o 0).writeResult = .ok ())
    (hb0 : (o 0).buildOk = false)
    (hfcv0 : (o 0).fixO.conversationFound = true)
    (hfc0 : (o 0).fixO.codeRaw1 = .ok g0)
    (hfn0 : normalize g0 = .ok F)
    (hF : F ≠ [])
    (hcv1 : (o 1).conversationFound = true)
    (hpl1 : (o 1).planRaw = .ok p1)
    (hcr1 : (o 1).codeRaw1 = .ok r1)
    (hn1 : normalize r1 = .ok M) :
    (run_deployment_pipeline o bd ⟨st, 0, mx, ap⟩).dep.status = "error" ∧
    (run_deployment_pipeline o bd ⟨st, 0, mx, ap⟩).dep.iteration = 2 ∧
    (run_deployment_pipeline o bd ⟨st, 0, mx, ap⟩).crash = none ∧
    (run_deployment_pipeline o bd ⟨st, 0, mx, ap⟩).events.count PipeEv.buildAttempt = 1 := by
  obtain ⟨evs1, hib1, hc1b, hss1⟩ :=
    iterBody_cont (o 0) bd ⟨"in_progress", 0, mx, ap⟩ none p0 r0 g0 M F
      hcv0 hpl0 hcr0 hn0 hM rfl hw0 hb0 hfcv0 hfc0 hfn0 hF
  obtain ⟨evs2, hib2, hc2b, hss2⟩ :=
    iterBody_stagnation (o 1) bd ⟨"in_progress", 1, mx, ap⟩ (some M) p1 r1 M M
      hcv1 hpl1 hcr1 hn1 hM rfl (dictEqB_refl M hnd)
  have hib1' : iterBody (o 0) bd ⟨"in_progress", 0, mx, ap⟩ none
      = (⟨"in_progress", 1, mx, ap⟩, evs1, .cont M) := hib1
  have hib2' : iterBody (o 1) bd ⟨"in_progress", 1, mx, ap⟩ (some M)
      = (⟨"error", 2, mx, ap⟩, evs2, .halt) := hib2
  obtain ⟨k, rfl⟩ : ∃ k, mx = k + 2 := ⟨mx - 2, by omega⟩
  have h2 : pipeLoop o bd (k + 1 + 1) ⟨"in_progress", 1, k + 2, ap⟩ (some M) 1
      = (⟨"error", 2, k + 2, ap⟩, evs2, none) :=
    pipeLoop_succ_halt o bd (k + 1) _ (some M) 1 _ evs2 (by simp) hib2'
  have h1 : pipeLoop o bd (k + 1 + 1 + 1) ⟨"in_progress", 0, k + 2, ap⟩ none 0
      = (⟨"error", 2, k + 2, ap⟩, evs1 ++ evs2, none) := by
    have := pipeLoop_succ_cont o bd (k + 1 + 1) ⟨"in_progress", 0, k + 2, ap⟩
      none 0 ⟨"in_progress", 1, k + 2, ap⟩ evs1 M _ (by simp) hib1' h2
    simpa using this
  have hL : pipeLoop o bd (k + 2 - 0 + 1) ⟨"in_progress", 0, k + 2, ap⟩ none 0
      = (⟨"error", 2, k + 2, ap⟩, evs1 ++ evs2, none) := h1
  have hrun : run_deployment_pipeline o bd ⟨st, 0, k + 2, ap⟩
      = ⟨⟨"error", 2, k + 2, ap⟩, PipeEv.setStatus "in_progress" :: (evs1 ++ evs2),
         none, true⟩ := by
    unfold run_deployment_pipeline
    dsimp only
    rw [hL]
    simp
  rw [hrun]
  refine ⟨rfl, rfl, rfl, ?_⟩
  simp [List.count_cons, List.count_append, hc1b, hc2b]

theorem iterBody_plan_crash (o : IterOracle) (bd : String) (dep : Deployment)
    (last : Option (List (String × String))) (e : String)
    (hcv : o.conversationFound = true)
    (hplan : o.planRaw = .error e) :
    iterBody o bd dep last =
      ({ dep with iteration := dep.iteration + 1 },
       [.logLine ("Iteration #" ++ toString (dep.iteration + 1) ++ " started."),
        .setIteration (dep.iteration + 1)],
       .crash (.httpExc e)) := by
  unfold iterBody
  rw [hplan]
  simp [hcv]

theorem run_pipeline_iteration_le (o : Nat → IterOracle) (bd : String)
    (dep0 : Deployment) (h : dep0.iteration ≤ dep0.max_iterations) :
    (run_deployment_pipeline o bd dep0).dep.iteration ≤ dep0.max_iterations ∧
    ∀ n, PipeEv.setIteration n ∈ (run_deployment_pipeline o bd dep0).events →
      n ≤ dep0.max_iterations := by
  have hinv := pipeLoop_invariant o bd (dep0.max_iterations - dep0.iteration + 1)
    ⟨"in_progress", dep0.iteration, dep0.max_iterations, dep0.app_type⟩ none 0 h
  unfold run_deployment_pipeline
  dsimp only
  rcases hc : pipeLoop o bd (dep0.max_iterations - dep0.iteration + 1)
      ⟨"in_progress", dep0.iteration, dep0.max_iterations, dep0.app_type⟩ none 0
    with ⟨depf, evs, cr⟩
  rw [hc] at hinv
  dsimp only at hinv
  obtain ⟨hi1, hi2, hi3⟩ := hinv
  cases cr with
  | some e =>
    dsimp only
    refine ⟨by omega, ?_⟩
    intro n hn
    rcases List.mem_cons.mp hn with hn | hn
    · simp at hn
    · exact hi3 n hn
  | none =>
    by_cases hs : (depf.status != "success" && depf.status != "error") = true
    · rw [if_pos hs]
      refine ⟨by (try dsimp only); omega, ?_⟩
      intro n hn
      try dsimp only at hn
      rcases List.mem_append.mp hn with hn | hn
      · rcases List.mem_cons.mp hn with hn | hn
        · simp at hn
        · exact hi3 n hn
      · simp at hn
    · rw [if_neg hs]
      refine ⟨by (try dsimp only); omega, ?_⟩
      intro n hn
      try dsimp only at hn
      rcases List.mem_cons.mp hn with hn | hn
      · simp at hn
      · exact hi3 n hn

/-- **C2 (amended).** What actually happens on a text-generation failure:
the provider wrapper turns it into a generic call error with
provider-specific detail text (`"Ollama multi-turn error: ..."`), but the
pipeline does *not* catch it — the exception propagates out of the
background task, the deployment is left in the non-terminal status
`in_progress`, and the workspace is not removed.  Only the non-raising
"empty mapping after two attempts" outcome is logged and translated into a
run-level `error`. -/
theorem C2_generation_failure_uncaught (o : Nat → IterOracle) (bd : String) (st ap : String)
    (it mx : Nat) (d : String)
    (hit : it < mx)
    (hcv : (o 0).conversationFound = true)
    (hplan : (o 0).planRaw = .error (ollamaMultiturnErrText d)) :
    (run_deployment_pipeline o bd ⟨st, it, mx, ap⟩).crash
      = some (.httpExc (ollamaMultiturnErrText d)) ∧
    (run_deployment_pipeline o bd ⟨st, it, mx, ap⟩).dep.status = "in_progress" ∧
    (run_deployment_pipeline o bd ⟨st, it, mx, ap⟩).workspaceRemoved = false := by
  have hib : iterBody (o 0) bd ⟨"in_progress", it, mx, ap⟩ none
      = (⟨"in_progress", it + 1, mx, ap⟩,
         [.logLine ("Iteration #" ++ toString (it + 1) ++ " started."),
          .setIteration (it + 1)],
         .crash (.httpExc (ollamaMultiturnErrText d))) :=
    iterBody_plan_crash (o 0) bd ⟨"in_progress", it, mx, ap⟩ none _ hcv hplan
  have hL : pipeLoop o bd (mx - it + 1) ⟨"in_progress", it, mx, ap⟩ none 0
      = (⟨"in_progress", it + 1, mx, ap⟩,
         [.logLine ("Iteration #" ++ toString (it + 1) ++ " started."),
          .setIteration (it + 1)],
         some (.httpExc (ollamaMultiturnErrText d))) :=
    pipeLoop_succ_crash o bd (mx - it) _ none 0 _ _ _ hit hib
  have hrun : run_deployment_pipeline o bd ⟨st, it, mx, ap⟩
      = ⟨⟨"in_progress", it + 1, mx, ap⟩,
         [.setStatus "in_progress",
          .logLine ("Iteration #" ++ toString (it + 1) ++ " started."),
          .setIteration (it + 1)],
         some (.httpExc (ollamaMultiturnErrText d)), false⟩ := by
    unfold run_deployment_pipeline
    dsimp only
    rw [hL]
    rfl
  rw [hrun]
  exact ⟨rfl, rfl, rfl⟩

/-- **C3 (amended).** The build workspace is wiped and recreated at the start
of every materialization, and it is removed when the run ends on the normal
exit paths (success, error-abort, iteration exhaustion) — but *not* when an
unexpected exception propagates: the `shutil.rmtree` after the loop is not
in a `finally`, so a crash skips it. -/
theorem C3_workspace_cleanup :
    (∀ (m : List (String × String)) (bd : String),
        (write_code_to_directory m bd).take 2 = [.rmtreeDir bd, .makeDirs bd]) ∧
    (∀ (o : Nat → IterOracle) (bd : String) (dep0 : Deployment),
        (run_deployment_pipeline o bd dep0).crash = none →
        (run_deployment_pipeline o bd dep0).workspaceRemoved = true) := by
  constructor
  · intro m bd
    rfl
  · intro o bd dep0 hcr
    unfold run_deployment_pipeline at hcr ⊢
    dsimp only at hcr ⊢
    rcases hc : pipeLoop o bd (dep0.max_iterations - dep0.iteration + 1)
        ⟨"in_progress", dep0.iteration, dep0.max_iterations, dep0.app_type⟩ none 0
      with ⟨depf, evs, cr⟩
    rw [hc] at hcr
    cases cr with
    | some e => simp at hcr
    | none =>
      by_cases hs : (depf.status != "success" && depf.status != "error") = true
      · dsimp only
        rw [if_pos hs]
      · dsimp only
        rw [if_neg hs]

/-- **C9.** (i) For every pipeline run starting with a recorded iteration
count within bounds, the final recorded iteration count never exceeds the
maximum, and every iteration number ever persisted (each `setIteration`
event) is within the maximum.  (ii) With maximum iterations = 3 and every
iteration's build failing while each repair returns usable (and
non-stagnating) code, the run ends in status `error` with exactly 3 recorded
iterations, no crash, and no transition to `success`. -/
theorem C9_iteration_ceiling :
    (∀ (o : Nat → IterOracle) (bd : String) (dep0 : Deployment),
        dep0.iteration ≤ dep0.max_iterations →
        (run_deployment_pipeline o bd dep0).dep.iteration ≤ dep0.max_iterations ∧
        ∀ n, PipeEv.setIteration n ∈ (run_deployment_pipeline o bd dep0).events →
          n ≤ dep0.max_iterations) ∧
    (∀ (o : Nat → IterOracle) (bd st ap : String)
        (p r g : Nat → String) (M F : Nat → List (String × String)),
        (∀ i, i < 3 → (o i).conversationFound = true) →
        (∀ i, i < 3 → (o i).planRaw = .ok (p i)) →
        (∀ i, i < 3 → (o i).codeRaw1 = .ok (r i)) →
        (∀ i, i < 3 → normalize (r i) = .ok (M i)) →
        (∀ i, i < 3 → M i ≠ []) →
        (∀ i, i < 2 → dictEqB (M (i + 1)) (M i) = false) →
        (∀ i, i < 3 → (o i).writeResult = .ok ()) →
        (∀ i, i < 3 → (o i).buildOk = false) →
        (∀ i, i < 3 → (o i).fixO.conversationFound = true) →
        (∀ i, i < 3 → (o i).fixO.codeRaw1 = .ok (g i)) →
        (∀ i, i < 3 → normalize (g i) = .ok (F i)) →
        (∀ i, i < 3 → F i ≠ []) →
        (run_deployment_pipeline o bd ⟨st, 0, 3, ap⟩).dep.status = "error" ∧
        (run_deployment_pipeline o bd ⟨st, 0, 3, ap⟩).dep.iteration = 3 ∧
        (run_deployment_pipeline o bd ⟨st, 0, 3, ap⟩).crash = none ∧
        PipeEv.setStatus "success" ∉
          (run_deployment_pipeline o bd ⟨st, 0, 3, ap⟩).events) := by
  constructor
  · intro o bd dep0 h
    exact run_pipeline_iteration_le o bd dep0 h
  · intro o bd st ap p r g M F h1 h2 h3 h4 h5 h6 h7 h8 h9 h10 h11 h12
    obtain ⟨evs1, hib1, hcb1, hss1⟩ :=
      iterBody_cont (o 0) bd ⟨"in_progress", 0, 3, ap⟩ none (p 0) (r 0) (g 0)
        (M 0) (F 0) (h1 0 (by omega)) (h2 0 (by omega)) (h3 0 (by omega))
        (h4 0 (by omega)) (h5 0 (by omega)) rfl (h7 0 (by omega))
        (h8 0 (by omega)) (h9 0 (by omega)) (h10 0 (by omega))
        (h11 0 (by omega)) (h12 0 (by omega))
    obtain ⟨evs2, hib2, hcb2, hss2⟩ :=
      iterBody_cont (o 1) bd ⟨"in_progress", 1, 3, ap⟩ (some (M 0)) (p 1) (r 1)
        (g 1) (M 1) (F 1) (h1 1 (by omega)) (h2 1 (by omega)) (h3 1 (by omega))
        (h4 1 (by omega)) (h5 1 (by omega)) (h6 0 (by omega)) (h7 1 (by omega))
        (h8 1 (by omega)) (h9 1 (by omega)) (h10 1 (by omega))
        (h11 1 (by omega)) (h12 1 (by omega))
    obtain ⟨evs3, hib3, hcb3, hss3⟩ :=
      iterBody_cont (o 2) bd ⟨"in_progress", 2, 3, ap⟩ (some (M 1)) (p 2) (r 2)
        (g 2) (M 2) (F 2) (h1 2 (by omega)) (h2 2 (by omega)) (h3 2 (by omega))
        (h4 2 (by omega)) (h5 2 (by omega)) (h6 1 (by omega)) (h7 2 (by omega))
        (h8 2 (by omega)) (h9 2 (by omega)) (h10 2 (by omega))
        (h11 2 (by omega)) (h12 2 (by omega))
    have hib1' : iterBody (o 0) bd ⟨"in_progress", 0, 3, ap⟩ none
        = (⟨"in_progress", 1, 3, ap⟩, evs1, .cont (M 0)) := hib1
    have hib2' : iterBody (o 1) bd ⟨"in_progress", 1, 3, ap⟩ (some (M 0))
        = (⟨"in_progress", 2, 3, ap⟩, evs2, .cont (M 1)) := hib2
    have hib3' : iterBody (o 2) bd ⟨"in_progress", 2, 3, ap⟩ (some (M 1))
        = (⟨"in_progress", 3, 3, ap⟩, evs3, .cont (M 2)) := hib3
    have h3s : pipeLoop o bd 1 ⟨"in_progress", 3, 3, ap⟩ (some (M 2)) 3
        = (⟨"in_progress", 3, 3, ap⟩, [], none) :=
      pipeLoop_stop o bd 1 _ _ 3 (by simp)
    have hL3 : pipeLoop o bd (1 + 1) ⟨"in_progress", 2, 3, ap⟩ (some (M 1)) 2
        = (⟨"in_progress", 3, 3, ap⟩, evs3, none) := by
      have := pipeLoop_succ_cont o bd 1 ⟨"in_progress", 2, 3, ap⟩ (some (M 1)) 2
        ⟨"in_progress", 3, 3, ap⟩ evs3 (M 2) _ (by simp) hib3' h3s
      simpa using this
    have hL2 : pipeLoop o bd (1 + 1 + 1) ⟨"in_progress", 1, 3, ap⟩ (some (M 0)) 1
        = (⟨"in_progress", 3, 3, ap⟩, evs2 ++ evs3, none) := by
      have := pipeLoop_succ_cont o bd (1 + 1) ⟨"in_progress", 1, 3, ap⟩
        (some (M 0)) 1 ⟨"in_progress", 2, 3, ap⟩ evs2 (M 1) _ (by simp) hib2' hL3
      simpa using this
    have hL1 : pipeLoop o bd (1 + 1 + 1 + 1) ⟨"in_progress", 0, 3, ap⟩ none 0
        = (⟨"in_progress", 3, 3, ap⟩, evs1 ++ (evs2 ++ evs3), none) := by
      have := pipeLoop_succ_cont o bd (1 + 1 + 1) ⟨"in_progress", 0, 3, ap⟩
        none 0 ⟨"in_progress", 1, 3, ap⟩ evs1 (M 0) _ (by simp) hib1' hL2
      simpa using this
    have hL : pipeLoop o bd (3 - 0 + 1) ⟨"in_progress", 0, 3, ap⟩ none 0
        = (⟨"in_progress", 3, 3, ap⟩, evs1 ++ (evs2 ++ evs3), none) := hL1
    have hrun : run_deployment_pipeline o bd ⟨st, 0, 3, ap⟩
        = ⟨⟨"error", 3, 3, ap⟩,
           PipeEv.setStatus "in_progress" :: (evs1 ++ (evs2 ++ evs3)) ++
             [PipeEv.logLine "Max iterations reached. Marking as error.",
              PipeEv.setStatus "error"],
           none, true⟩ := by
      unfold run_deployment_pipeline
      dsimp only
      rw [hL]
      simp
    rw [hrun]
    refine ⟨rfl, rfl, rfl, ?_⟩
    intro hmem
    simp only [List.cons_append, List.mem_cons, List.mem_append] at hmem
    rcases hmem with h | h | h
    · simp at h
    · rcases h with h | h | h
      · exact hss1 "success" h
      · exact hss2 "success" h
      · exact hss3 "success" h
    · simp at h

/-- **C2 counterexample.** The claim says a text-generation failure is always
caught and translated into a log line plus run-level `error`, never an
uncaught crash leaving a non-terminal status.  At this concrete run — the
plan call raises the wrapped provider error — the embedded pipeline ends
with a propagating exception and the deployment still `in_progress`. -/
theorem C2_uncaught_crash_cex :
    (run_deployment_pipeline
      (fun _ => ⟨true, .error (ollamaMultiturnErrText "connection refused"),
        .ok "x", .ok "x", .ok (), false, "", false, "", ⟨true, .ok "", .ok ""⟩⟩)
      "/tmp/build_d1" ⟨"pending", 0, 5, "script"⟩).crash
      = some (.httpExc (ollamaMultiturnErrText "connection refused")) ∧
    (run_deployment_pipeline
      (fun _ => ⟨true, .error (ollamaMultiturnErrText "connection refused"),
        .ok "x", .ok "x", .ok (), false, "", false, "", ⟨true, .ok "", .ok ""⟩⟩)
      "/tmp/build_d1" ⟨"pending", 0, 5, "script"⟩).dep.status = "in_progress" := by
  decide

/-- **C2 witness.** -/
theorem C2_generation_failure_uncaught_witness :
    ((0 : Nat) < 5) ∧
    ((run_deployment_pipeline
        (fun _ => ⟨true, .error (ollamaMultiturnErrText "boom"),
          .ok "x", .ok "x", .ok (), false, "", false, "", ⟨true, .ok "", .ok ""⟩⟩)
        "/tmp/build_d1" ⟨"pending", 0, 5, "script"⟩).crash
        = some (.httpExc (ollamaMultiturnErrText "boom")) ∧
     (run_deployment_pipeline
        (fun _ => ⟨true, .error (ollamaMultiturnErrText "boom"),
          .ok "x", .ok "x", .ok (), false, "", false, "", ⟨true, .ok "", .ok ""⟩⟩)
        "/tmp/build_d1" ⟨"pending", 0, 5, "script"⟩).dep.status = "in_progress" ∧
     (run_deployment_pipeline
        (fun _ => ⟨true, .error (ollamaMultiturnErrText "boom"),
          .ok "x", .ok "x", .ok (), false, "", false, "", ⟨true, .ok "", .ok ""⟩⟩)
        "/tmp/build_d1" ⟨"pending", 0, 5, "script"⟩).workspaceRemoved = false) :=
  ⟨by decide,
   C2_generation_failure_uncaught
     (fun _ => ⟨true, .error (ollamaMultiturnErrText "boom"),
       .ok "x", .ok "x", .ok (), false, "", false, "", ⟨true, .ok "", .ok ""⟩⟩)
     "/tmp/build_d1" "pending" "script" 0 5 "boom"
     (by decide) (by decide) (by decide)⟩

/-- **C3 counterexample.** The claim says the workspace is removed on every
exit path including unexpected exceptions.  At this concrete run — the code
generation call raises — the run ends by a propagating exception and the
workspace is not removed. -/
theorem C3_workspace_leak_cex :
    (run_deployment_pipeline
      (fun _ => ⟨true, .ok "", .error (ollamaMultiturnErrText "read timeout"),
        .ok "", .ok (), false, "", false, "", ⟨true, .ok "", .ok ""⟩⟩)
      "/tmp/build_d2" ⟨"pending", 0, 5, "script"⟩).workspaceRemoved = false ∧
    (run_deployment_pipeline
      (fun _ => ⟨true, .ok "", .error (ollamaMultiturnErrText "read timeout"),
        .ok "", .ok (), false, "", false, "", ⟨true, .ok "", .ok ""⟩⟩)
      "/tmp/build_d2" ⟨"pending", 0, 5, "script"⟩).crash.isSome = true := by
  decide

/-- **C3 witness**: a crash-free run (successful at iteration 1) removes its
workspace, and materialization starts by wiping and recreating the build
directory. -/
theorem C3_workspace_cleanup_witness :
    ((write_code_to_directory [("a", "b")] "/tmp/build_w").take 2
      = [.rmtreeDir "/tmp/build_w", .makeDirs "/tmp/build_w"]) ∧
    (run_deployment_pipeline
      (fun _ => ⟨true, .ok "", .ok "\x7b\"a\": \"b\"\x7d", .ok "", .ok (),
        true, "bl", true, "rl", ⟨true, .ok "", .ok ""⟩⟩)
      "/tmp/build_w" ⟨"pending", 0, 5, "script"⟩).crash = none ∧
    (run_deployment_pipeline
      (fun _ => ⟨true, .ok "", .ok "\x7b\"a\": \"b\"\x7d", .ok "", .ok (),
        true, "bl", true, "rl", ⟨true, .ok "", .ok ""⟩⟩)
      "/tmp/build_w" ⟨"pending", 0, 5, "script"⟩).workspaceRemoved = true :=
  ⟨C3_workspace_cleanup.1 [("a", "b")] "/tmp/build_w",
   by decide,
   C3_workspace_cleanup.2
     (fun _ => ⟨true, .ok "", .ok "\x7b\"a\": \"b\"\x7d", .ok "", .ok (),
       true, "bl", true, "rl", ⟨true, .ok "", .ok ""⟩⟩)
     "/tmp/build_w" ⟨"pending", 0, 5, "script"⟩ (by decide)⟩

/-- **C8 witness**: a run whose generator repeats the same one-file mapping
in iterations 1 and 2 (build failing in iteration 1, repair succeeding). -/
theorem C8_stagnation_guard_witness :
    ((2 : Nat) ≤ 5) ∧
    ((run_deployment_pipeline
        (fun _ => ⟨true, .ok "", .ok "\x7b\"a\": \"x\"\x7d", .ok "", .ok (),
          false, "bl", false, "rl", ⟨true, .ok "\x7b\"f\": \"z\"\x7d", .ok ""⟩⟩)
        "/tmp/build_8" ⟨"pending", 0, 5, "script"⟩).dep.status = "error" ∧
     (run_deployment_pipeline
        (fun _ => ⟨true, .ok "", .ok "\x7b\"a\": \"x\"\x7d", .ok "", .ok (),
          false, "bl", false, "rl", ⟨true, .ok "\x7b\"f\": \"z\"\x7d", .ok ""⟩⟩)
        "/tmp/build_8" ⟨"pending", 0, 5, "script"⟩).dep.iteration = 2 ∧
     (run_deployment_pipeline
        (fun _ => ⟨true, .ok "", .ok "\x7b\"a\": \"x\"\x7d", .ok "", .ok (),
          false, "bl", false, "rl", ⟨true, .ok "\x7b\"f\": \"z\"\x7d", .ok ""⟩⟩)
        "/tmp/build_8" ⟨"pending", 0, 5, "script"⟩).crash = none ∧
     (run_deployment_pipeline
        (fun _ => ⟨true, .ok "", .ok "\x7b\"a\": \"x\"\x7d", .ok "", .ok (),
          false, "bl", false, "rl", ⟨true, .ok "\x7b\"f\": \"z\"\x7d", .ok ""⟩⟩)
        "/tmp/build_8" ⟨"pending", 0, 5, "script"⟩).events.count
          PipeEv.buildAttempt = 1) :=
  ⟨by decide,
   C8_stagnation_guard
     (fun _ => ⟨true, .ok "", .ok "\x7b\"a\": \"x\"\x7d", .ok "", .ok (),
       false, "bl", false, "rl", ⟨true, .ok "\x7b\"f\": \"z\"\x7d", .ok ""⟩⟩)
     "/tmp/build_8" "pending" "script" 5 "" "" "\x7b\"a\": \"x\"\x7d"
     "\x7b\"a\": \"x\"\x7d" "\x7b\"f\": \"z\"\x7d" [("a", "x")] [("f", "z")]
     (by decide) (by decide) (by decide) (by decide) (by decide) (by decide)
     (by decide) (by decide) (by decide) (by decide) (by decide) (by decide)
     (by decide) (by decide) (by decide) (by decide) (by decide)⟩

/-- **C9 witness**: maximum 3 iterations, every build failing, each repair
returning usable code, consecutive mappings distinct. -/
theorem C9_iteration_ceiling_witness :
    dictEqB [("b", "y")] [("a", "x")] = false ∧
    ((run_deployment_pipeline
        (fun i => ⟨true, .ok "",
          .ok (if i % 2 == 0 then "\x7b\"a\": \"x\"\x7d" else "\x7b\"b\": \"y\"\x7d"),
          .ok "", .ok (), false, "bl", false, "rl",
          ⟨true, .ok "\x7b\"f\": \"z\"\x7d", .ok ""⟩⟩)
        "/tmp/build_9" ⟨"pending", 0, 3, "script"⟩).dep.status = "error" ∧
     (run_deployment_pipeline
        (fun i => ⟨true, .ok "",
          .ok (if i % 2 == 0 then "\x7b\"a\": \"x\"\x7d" else "\x7b\"b\": \"y\"\x7d"),
          .ok "", .ok (), false, "bl", false, "rl",
          ⟨true, .ok "\x7b\"f\": \"z\"\x7d", .ok ""⟩⟩)
        "/tmp/build_9" ⟨"pending", 0, 3, "script"⟩).dep.iteration = 3 ∧
     (run_deployment_pipeline
        (fun i => ⟨true, .ok "",
          .ok (if i % 2 == 0 then "\x7b\"a\": \"x\"\x7d" else "\x7b\"b\": \"y\"\x7d"),
          .ok "", .ok (), false, "bl", false, "rl",
          ⟨true, .ok "\x7b\"f\": \"z\"\x7d", .ok ""⟩⟩)
        "/tmp/build_9" ⟨"pending", 0, 3, "script"⟩).crash = none ∧
     PipeEv.setStatus "success" ∉
       (run_deployment_pipeline
        (fun i => ⟨true, .ok "",
          .ok (if i % 2 == 0 then "\x7b\"a\": \"x\"\x7d" else "\x7b\"b\": \"y\"\x7d"),
          .ok "", .ok (), false, "bl", false, "rl",
          ⟨true, .ok "\x7b\"f\": \"z\"\x7d", .ok ""⟩⟩)
        "/tmp/build_9" ⟨"pending", 0, 3, "script"⟩).events) :=
  ⟨by decide,
   C9_iteration_ceiling.2
     (fun i => ⟨true, .ok "",
       .ok (if i % 2 == 0 then "\x7b\"a\": \"x\"\x7d" else "\x7b\"b\": \"y\"\x7d"),
       .ok "", .ok (), false, "bl", false, "rl",
       ⟨true, .ok "\x7b\"f\": \"z\"\x7d", .ok ""⟩⟩)
     "/tmp/build_9" "pending" "script"
     (fun _ => "")
     (fun i => if i % 2 == 0 then "\x7b\"a\": \"x\"\x7d" else "\x7b\"b\": \"y\"\x7d")
     (fun _ => "\x7b\"f\": \"z\"\x7d")
     (fun i => if i % 2 == 0 then [("a", "x")] else [("b", "y")])
     (fun _ => [("f", "z")])
     (by decide) (by decide) (by decide) (by decide) (by decide) (by decide)
     (by decide) (by decide) (by decide) (by decide) (by decide) (by decide)⟩


theorem any_key_eq_false_notin (acc : List (String × Json)) (k : String)
    (h : acc.any (fun p => p.1 == k) = false) : k ∉ acc.map Prod.fst := by
  intro hk
  obtain ⟨p, hp, hpk⟩ := List.mem_map.mp hk
  have : acc.any (fun p => p.1 == k) = true :=
    List.any_eq_true.mpr ⟨p, hp, by simp [hpk]⟩
  simp [this] at h

theorem objInsert_keys (acc : List (String × Json)) (k : String) (v : Json) :
    (objInsert acc k v).map Prod.fst =
      if acc.any (fun p => p.1 == k) then acc.map Prod.fst
      else acc.map Prod.fst ++ [k] := by
  have hkey : ∀ p : String × Json, (if p.1 == k then (k, v) else p).1 = p.1 := by
    intro p
    split
    · rename_i hh
      exact (beq_iff_eq.mp hh).symm
    · rfl
  unfold objInsert
  split
  · rw [List.map_map]
    exact List.map_congr_left (fun p _ => hkey p)
  · simp

theorem objInsert_nodup (acc : List (String × Json)) (k : String) (v : Json)
    (h : (acc.map Prod.fst).Nodup) : ((objInsert acc k v).map Prod.fst).Nodup := by
  rw [objInsert_keys]
  split
  · exact h
  · rename_i hany
    have hf : acc.any (fun p => p.1 == k) = false := by
      rw [Bool.eq_false_iff]
      exact hany
    rw [List.nodup_append]
    refine ⟨h, List.nodup_singleton k, ?_⟩
    intro a ha hb
    rw [List.mem_singleton] at hb
    subst hb
    exact any_key_eq_false_notin acc a hf ha
set_option maxHeartbeats 2000000 in
theorem parser_obj_nodup : ∀ fuel : Nat,
    (∀ cs kvs rest, parseVal fuel cs = some (Json.obj kvs, rest) →
      (kvs.map Prod.fst).Nodup) ∧
    (∀ cs acc kvs rest, (acc.map Prod.fst).Nodup →
      parseMembers fuel cs acc = some (Json.obj kvs, rest) →
      (kvs.map Prod.fst).Nodup) ∧
    (∀ cs j rest, parseElems fuel cs = some (j, rest) →
      ∃ xs, j = Json.arr xs) := by
  intro fuel
  induction fuel with
  | zero =>
    refine ⟨?_, ?_, ?_⟩ <;> intro cs
    · intro kvs rest h
      simp [parseVal] at h
    · intro acc kvs rest hacc h
      simp [parseMembers] at h
    · intro j rest h
      simp [parseElems] at h
  | succ fuel ih =>
    obtain ⟨ihV, ihM, ihE⟩ := ih
    refine ⟨?_, ?_, ?_⟩
    · intro cs kvs rest h
      rw [parseVal] at h
      repeat' split at h
      all_goals
        first
          | exact ihM _ _ _ _ (by simp) h
          | (obtain ⟨xs, hxs⟩ := ihE _ _ _ h; simp at hxs)
          | simp_all
    · intro cs acc kvs rest hacc h
      rw [parseMembers.eq_def] at h
      repeat' split at h
      all_goals try simp_all
      all_goals
        first
          | exact ihM _ _ _ _ (objInsert_nodup _ _ _ hacc) h
          | (rw [← h.1]; exact objInsert_nodup _ _ _ hacc)
    · intro cs j rest h
      rw [parseElems] at h
      repeat' split at h
      all_goals try simp_all
      all_goals exact ⟨_, h.1.symm⟩
theorem char_valid_ranges (c : Char) :
    c.toNat < 0xD800 ∨ (0xDFFF < c.toNat ∧ c.toNat < 0x110000) := by
  have h := c.valid
  unfold UInt32.isValidChar Nat.isValidChar at h
  exact h

theorem hexVal_hexDigitChar : ∀ d : Nat, d < 16 → hexVal (hexDigitChar d) = some d := by
  decide

theorem hexQuad_hex4 (n : Nat) (h : n < 65536) :
    hexQuad (hexDigitChar (n / 4096 % 16)) (hexDigitChar (n / 256 % 16))
      (hexDigitChar (n / 16 % 16)) (hexDigitChar (n % 16)) = some n := by
  unfold hexQuad
  rw [hexVal_hexDigitChar _ (Nat.mod_lt _ (by omega)),
    hexVal_hexDigitChar _ (Nat.mod_lt _ (by omega)),
    hexVal_hexDigitChar _ (Nat.mod_lt _ (by omega)),
    hexVal_hexDigitChar _ (Nat.mod_lt _ (by omega))]
  show some _ = some n
  congr 1
  omega

theorem escList_cons (c : Char) (cs : List Char) :
    escList (c :: cs) = escChar c ++ escList cs := rfl

theorem escChar_length_pos (c : Char) : 1 ≤ (escChar c).length := by
  unfold escChar
  repeat' split
  all_goals simp [hex4]

theorem escList_length (cs : List Char) : cs.length ≤ (escList cs).length := by
  induction cs with
  | nil => simp [escList]
  | cons c cs ih =>
    rw [escList_cons]
    have := escChar_length_pos c
    simp only [List.length_append, List.length_cons]
    omega

theorem psb_quote (f : Nat) (L : List Char) :
    parseStrBody (f + 1) ('\\' :: '"' :: L)
      = (parseStrBody f L).map (fun pr => ('"' :: pr.1, pr.2)) := rfl

theorem psb_backslash (f : Nat) (L : List Char) :
    parseStrBody (f + 1) ('\\' :: '\\' :: L)
      = (parseStrBody f L).map (fun pr => ('\\' :: pr.1, pr.2)) := rfl

theorem psb_n (f : Nat) (L : List Char) :
    parseStrBody (f + 1) ('\\' :: 'n' :: L)
      = (parseStrBody f L).map (fun pr => ('\n' :: pr.1, pr.2)) := rfl

theorem psb_t (f : Nat) (L : List Char) :
    parseStrBody (f + 1) ('\\' :: 't' :: L)
      = (parseStrBody f L).map (fun pr => ('\t' :: pr.1, pr.2)) := rfl

theorem psb_r (f : Nat) (L : List Char) :
    parseStrBody (f + 1) ('\\' :: 'r' :: L)
      = (parseStrBody f L).map (fun pr => ('\r' :: pr.1, pr.2)) := rfl

theorem psb_b (f : Nat) (L : List Char) :
    parseStrBody (f + 1) ('\\' :: 'b' :: L)
      = (parseStrBody f L).map (fun pr => ('\x08' :: pr.1, pr.2)) := rfl

theorem psb_f (f : Nat) (L : List Char) :
    parseStrBody (f + 1) ('\\' :: 'f' :: L)
      = (parseStrBody f L).map (fun pr => ('\x0c' :: pr.1, pr.2)) := rfl

theorem psb_close (f : Nat) (L : List Char) :
    parseStrBody (f + 1) ('"' :: L) = some ([], L) := rfl

theorem psb_plain (f : Nat) (c : Char) (L : List Char)
    (h1 : (c == '"') = false) (h2 : (c == '\\') = false)
    (h3 : ¬ c.toNat < 0x20) :
    parseStrBody (f + 1) (c :: L)
      = (parseStrBody f L).map (fun pr => (c :: pr.1, pr.2)) := by
  rw [parseStrBody.eq_def]
  (try dsimp only)
  simp only [h1, h2, Bool.false_eq_true, if_false, if_neg h3]

theorem psb_u4 (f : Nat) (d1 d2 d3 d4 : Char) (L : List Char) (n : Nat)
    (hq : hexQuad d1 d2 d3 d4 = some n)
    (hs : ¬ (0xD800 ≤ n ∧ n ≤ 0xDBFF)) :
    parseStrBody (f + 1) ('\\' :: 'u' :: d1 :: d2 :: d3 :: d4 :: L)
      = (parseStrBody f L).map (fun pr => (Char.ofNat n :: pr.1, pr.2)) := by
  rw [parseStrBody.eq_def]
  (try dsimp only)
  repeat first
  | rw [if_pos (by decide : (('\\' : Char) == '\\') = true)]
  | rw [if_pos (by decide : (('u' : Char) == 'u') = true)]
  | rw [if_neg (by decide)]
  rw [hq]
  (try dsimp only)
  rw [if_neg (by simpa using hs)]

theorem psb_surrogate (f : Nat) (d1 d2 d3 d4 e1 e2 e3 e4 : Char)
    (L : List Char) (n m : Nat)
    (hqn : hexQuad d1 d2 d3 d4 = some n)
    (hn : 0xD800 ≤ n ∧ n ≤ 0xDBFF)
    (hqm : hexQuad e1 e2 e3 e4 = some m)
    (hm : 0xDC00 ≤ m ∧ m ≤ 0xDFFF) :
    parseStrBody (f + 1)
        ('\\' :: 'u' :: d1 :: d2 :: d3 :: d4 :: '\\' :: 'u' :: e1 :: e2 :: e3 :: e4 :: L)
      = (parseStrBody f L).map
          (fun pr => (Char.ofNat (0x10000 + (n - 0xD800) * 1024 + (m - 0xDC00))
            :: pr.1, pr.2)) := by
  rw [parseStrBody.eq_def]
  (try dsimp only)
  repeat first
  | rw [if_pos (by decide : (('\\' : Char) == '\\') = true)]
  | rw [if_pos (by decide : (('u' : Char) == 'u') = true)]
  | rw [if_neg (by decide)]
  rw [hqn]
  (try dsimp only)
  rw [if_pos (by simpa using hn)]
  (try dsimp only)
  split
  · rename_i g1 g2 g3 g4 cs4 heq
    simp only [List.cons.injEq] at heq
    obtain ⟨-, -, rfl, rfl, rfl, rfl, rfl⟩ := heq
    rw [hqm]
    (try dsimp only)
    rw [if_pos (by simpa using hm)]
  · rename_i hne
    exact absurd rfl (hne e1 e2 e3 e4 L)

theorem parseStrBody_escList (cs rest : List Char) :
    ∀ f : Nat, cs.length < f →
    parseStrBody f (escList cs ++ '"' :: rest) = some (cs, rest) := by
  induction cs with
  | nil =>
    intro f hf
    obtain ⟨g, rfl⟩ : ∃ g, f = g + 1 := ⟨f - 1, by omega⟩
    exact psb_close g rest
  | cons c cs ih =>
    intro f hf
    obtain ⟨g, rfl⟩ : ∃ g, f = g + 1 := ⟨f - 1, by omega⟩
    simp only [List.length_cons] at hf
    have hg : cs.length < g := by omega
    rw [escList_cons]
    by_cases h1 : c = '"'
    · subst h1
      have he : escChar '"' = ['\\', '"'] := rfl
      rw [he]
      simp only [List.cons_append, List.nil_append]
      rw [psb_quote, ih g hg]
      rfl
    · by_cases h2 : c = '\\'
      · subst h2
        have he : escChar '\\' = ['\\', '\\'] := rfl
        rw [he]
        simp only [List.cons_append, List.nil_append]
        rw [psb_backslash, ih g hg]
        rfl
      · by_cases h3 : c = '\n'
        · subst h3
          have he : escChar '\n' = ['\\', 'n'] := rfl
          rw [he]
          simp only [List.cons_append, List.nil_append]
          rw [psb_n, ih g hg]
          rfl
        · by_cases h4 : c = '\t'
          · subst h4
            have he : escChar '\t' = ['\\', 't'] := rfl
            rw [he]
            simp only [List.cons_append, List.nil_append]
            rw [psb_t, ih g hg]
            rfl
          · by_cases h5 : c = '\r'
            · subst h5
              have he : escChar '\r' = ['\\', 'r'] := rfl
              rw [he]
              simp only [List.cons_append, List.nil_append]
              rw [psb_r, ih g hg]
              rfl
            · by_cases h6 : c = '\x08'
              · subst h6
                have he : escChar '\x08' = ['\\', 'b'] := rfl
                rw [he]
                simp only [List.cons_append, List.nil_append]
                rw [psb_b, ih g hg]
                rfl
              · by_cases h7 : c = '\x0c'
                · subst h7
                  have he : escChar '\x0c' = ['\\', 'f'] := rfl
                  rw [he]
                  simp only [List.cons_append, List.nil_append]
                  rw [psb_f, ih g hg]
                  rfl
                · have hne : ∀ d : Char, c ≠ d → ((c == d) = true → False) := by
                    intro d hd hb
                    exact hd (by simpa using hb)
                  by_cases h8 : c.toNat < 0x20
                  · have he : escChar c = '\\' :: 'u' :: hex4 c.toNat := by
                      unfold escChar
                      rw [if_neg (hne _ h1), if_neg (hne _ h2), if_neg (hne _ h3),
                        if_neg (hne _ h4), if_neg (hne _ h5), if_neg (hne _ h6),
                        if_neg (hne _ h7), if_pos h8]
                    rw [he]
                    simp only [hex4, List.cons_append, List.nil_append]
                    rw [psb_u4 g _ _ _ _ _ c.toNat (hexQuad_hex4 c.toNat (by omega))
                      (by omega), ih g hg]
                    simp [Char.ofNat_toNat]
                  · by_cases h9 : c.toNat < 0x7f
                    · have he : escChar c = [c] := by
                        unfold escChar
                        rw [if_neg (hne _ h1), if_neg (hne _ h2), if_neg (hne _ h3),
                          if_neg (hne _ h4), if_neg (hne _ h5), if_neg (hne _ h6),
                          if_neg (hne _ h7), if_neg h8, if_pos h9]
                      rw [he]
                      simp only [List.cons_append, List.nil_append]
                      rw [psb_plain g c _ (by simpa using h1) (by simpa using h2) h8,
                        ih g hg]
                      rfl
                    · have hv := char_valid_ranges c
                      by_cases h10 : c.toNat < 0x10000
                      · have he : escChar c = '\\' :: 'u' :: hex4 c.toNat := by
                          unfold escChar
                          rw [if_neg (hne _ h1), if_neg (hne _ h2), if_neg (hne _ h3),
                            if_neg (hne _ h4), if_neg (hne _ h5), if_neg (hne _ h6),
                            if_neg (hne _ h7), if_neg h8, if_neg h9, if_pos h10]
                        rw [he]
                        simp only [hex4, List.cons_append, List.nil_append]
                        rw [psb_u4 g _ _ _ _ _ c.toNat (hexQuad_hex4 c.toNat (by omega))
                          (by omega), ih g hg]
                        simp [Char.ofNat_toNat]
                      · have he : escChar c =
                            ('\\' :: 'u' :: hex4 (0xD800 + (c.toNat - 0x10000) / 1024)) ++
                            ('\\' :: 'u' :: hex4 (0xDC00 + (c.toNat - 0x10000) % 1024)) := by
                          unfold escChar
                          rw [if_neg (hne _ h1), if_neg (hne _ h2), if_neg (hne _ h3),
                            if_neg (hne _ h4), if_neg (hne _ h5), if_neg (hne _ h6),
                            if_neg (hne _ h7), if_neg h8, if_neg h9, if_neg h10]
                        rw [he]
                        simp only [hex4, List.cons_append, List.nil_append,
                          List.append_assoc]
                        rw [psb_surrogate g _ _ _ _ _ _ _ _ _
                          (0xD800 + (c.toNat - 0x10000) / 1024)
                          (0xDC00 + (c.toNat - 0x10000) % 1024)
                          (hexQuad_hex4 _ (by omega)) (by omega)
                          (hexQuad_hex4 _ (by omega)) (by omega), ih g hg]
                        simp only [Option.map_some']
                        have harith : 0x10000 +
                            (0xD800 + (c.toNat - 0x10000) / 1024 - 0xD800) * 1024 +
                            (0xDC00 + (c.toNat - 0x10000) % 1024 - 0xDC00) = c.toNat := by
                          omega
                        rw [harith, Char.ofNat_toNat]


theorem skipJsonWs_nonws (c : Char) (cs : List Char) (h : jsonWsChar c = false) :
    skipJsonWs (c :: cs) = c :: cs := by
  simp [skipJsonWs, h]

theorem skipJsonWs_ws (c : Char) (cs : List Char) (h : jsonWsChar c = true) :
    skipJsonWs (c :: cs) = skipJsonWs cs := by
  simp [skipJsonWs, h]

theorem dropLeadWs_cons_false (c : Char) (cs : List Char) (h : isPyWs c = false) :
    dropLeadWs (c :: cs) = c :: cs := by
  simp [dropLeadWs, h]

theorem stripChars_braces (mid : List Char) :
    stripChars ('\x7b' :: (mid ++ ['\x7d'])) = '\x7b' :: (mid ++ ['\x7d']) := by
  unfold stripChars
  rw [show ('\x7b' :: (mid ++ ['\x7d'])).reverse = '\x7d' :: (mid.reverse ++ ['\x7b'])
    from by simp]
  rw [dropLeadWs_cons_false _ _ (by decide)]
  rw [show ('\x7d' :: (mid.reverse ++ ['\x7b'])).reverse = '\x7b' :: (mid ++ ['\x7d'])
    from by simp]
  rw [dropLeadWs_cons_false _ _ (by decide)]

theorem dumpsTail_cons (q : String × String) (qs : List (String × String)) :
    dumpsTail (q :: qs) =
      ',' :: '\n' :: ' ' :: ' ' :: (dumpsItem q ++ dumpsTail qs) := by
  simp [dumpsTail, List.cons_append, List.append_assoc]

theorem dumpsTail_length (ps : List (String × String)) :
    ps.length ≤ (dumpsTail ps).length := by
  induction ps with
  | nil => simp [dumpsTail]
  | cons q qs ih =>
    rw [dumpsTail_cons]
    simp only [List.length_cons, List.length_append]
    omega

theorem parseVal_quoted (f : Nat) (s : String) (X : List Char) :
    parseVal (f + 1) (' ' :: '"' :: (escList s.data ++ '"' :: X))
      = some (Json.str s, X) := by
  rw [parseVal.eq_def]
  (try dsimp only)
  rw [skipJsonWs_ws _ _ (by decide), skipJsonWs_nonws _ _ (by decide)]
  (try dsimp only)
  rw [if_pos (by decide : (('"' : Char) == '"') = true)]
  rw [parseStrBody_escList s.data X ((escList s.data ++ '"' :: X).length + 1)
    (by have := escList_length s.data; simp only [List.length_append,
      List.length_cons]; omega)]
  rfl
theorem dumpsItem_shape (p : String × String) (Y : List Char) :
    dumpsItem p ++ Y = '"' :: (escList p.1.data ++ '"' ::
      (':' :: ' ' :: '"' :: (escList p.2.data ++ '"' :: Y))) := by
  simp [dumpsItem, quoteStr, List.cons_append, List.append_assoc]

theorem parseMembers_dumps :
    ∀ (ps : List (String × String)) (p : String × String)
      (acc : List (String × Json)) (fuel : Nat),
      ps.length + 1 < fuel →
      parseMembers fuel (dumpsItem p ++ dumpsTail ps) acc
        = some (Json.obj (insertAllStr acc (p :: ps)), []) := by
  intro ps
  induction ps with
  | nil =>
    intro p acc fuel hf
    obtain ⟨g2, rfl⟩ : ∃ g2, fuel = g2 + 1 + 1 := ⟨fuel - 2, by omega⟩
    rw [dumpsItem_shape]
    rw [parseMembers.eq_def]
    (try dsimp only)
    rw [if_pos (by decide : (('"' : Char) == '"') = true)]
    rw [parseStrBody_escList p.1.data _ _
      (by have := escList_length p.1.data; simp only [List.length_append,
        List.length_cons]; omega)]
    (try dsimp only)
    rw [skipJsonWs_nonws _ _ (by decide)]
    split
    · rename_i r2 heq
      injection heq with hc heq2
      subst heq2
      rw [parseVal_quoted g2 p.2 (dumpsTail [])]
      (try dsimp only)
      rw [show skipJsonWs (dumpsTail ([] : List (String × String))) = ['\x7d']
        from rfl]
      split
      · rename_i r4 heq3
        injection heq3 with hc2 heq4
        exact absurd hc2 (by decide)
      · rename_i r4 heq3
        injection heq3 with hc2 heq4
        subst heq4
        rfl
      · rename_i hne1 hne2
        exact absurd rfl (hne2 [])
    · rename_i hne
      exact absurd rfl (hne (' ' :: '"' :: (escList p.2.data ++ '"' :: dumpsTail [])))
  | cons q qs ih =>
    intro p acc fuel hf
    obtain ⟨g2, rfl⟩ : ∃ g2, fuel = g2 + 1 + 1 := ⟨fuel - 2, by omega⟩
    rw [dumpsItem_shape]
    rw [parseMembers.eq_def]
    (try dsimp only)
    rw [if_pos (by decide : (('"' : Char) == '"') = true)]
    rw [parseStrBody_escList p.1.data _ _
      (by have := escList_length p.1.data; simp only [List.length_append,
        List.length_cons]; omega)]
    (try dsimp only)
    rw [skipJsonWs_nonws _ _ (by decide)]
    split
    · rename_i r2 heq
      injection heq with hc heq2
      subst heq2
      rw [parseVal_quoted g2 p.2 (dumpsTail (q :: qs))]
      (try dsimp only)
      rw [dumpsTail_cons]
      rw [skipJsonWs_nonws _ _ (by decide)]
      split
      · rename_i r4 heq3
        injection heq3 with hc2 heq4
        subst heq4
        rw [show skipJsonWs ('\n' :: ' ' :: ' ' :: (dumpsItem q ++ dumpsTail qs))
            = skipJsonWs (dumpsItem q ++ dumpsTail qs) from by
          rw [skipJsonWs_ws _ _ (by decide), skipJsonWs_ws _ _ (by decide),
            skipJsonWs_ws _ _ (by decide)]]
        rw [show skipJsonWs (dumpsItem q ++ dumpsTail qs)
            = dumpsItem q ++ dumpsTail qs from by
          rw [dumpsItem_shape]
          rw [skipJsonWs_nonws _ _ (by decide)]]
        rw [ih q (objInsert acc p.1 (Json.str p.2)) (g2 + 1)
          (by simp only [List.length_cons] at hf; omega)]
        rfl
      · rename_i r4 heq3
        injection heq3 with hc2 heq4
        exact absurd hc2 (by decide)
      · rename_i hne1 hne2
        exact absurd rfl (hne1 ('\n' :: ' ' :: ' ' :: (dumpsItem q ++ dumpsTail qs)))
    · rename_i hne
      exact absurd rfl
        (hne (' ' :: '"' :: (escList p.2.data ++ '"' :: dumpsTail (q :: qs))))

theorem dumps_data_shape (p : String × String) (ps : List (String × String)) :
    (dumps (p :: ps)).data =
      '\x7b' :: '\n' :: ' ' :: ' ' :: (dumpsItem p ++ dumpsTail ps) := rfl

theorem loads_dumps (m : List (String × String)) :
    loads (dumps m) = some (Json.obj (insertAllStr [] m)) := by
  match m with
  | [] => rfl
  | p :: ps =>
    obtain ⟨g2, hg2, hbound⟩ :
        ∃ g2, 2 * (dumps (p :: ps)).data.length + 2 = g2 + 1 + 1 ∧
          ps.length + 1 < g2 + 1 := by
      refine ⟨2 * (dumps (p :: ps)).data.length, rfl, ?_⟩
      have h1 := dumpsTail_length ps
      rw [dumps_data_shape]
      simp only [List.length_cons, List.length_append]
      omega
    have hpv : parseVal (g2 + 1 + 1)
        ('\x7b' :: '\n' :: ' ' :: ' ' :: (dumpsItem p ++ dumpsTail ps))
        = some (Json.obj (insertAllStr [] (p :: ps)), []) := by
      rw [parseVal.eq_def]
      (try dsimp only)
      rw [skipJsonWs_nonws _ _ (by decide)]
      (try dsimp only)
      rw [if_neg (by decide),
        if_pos (by decide : (('\x7b' : Char) == '\x7b') = true)]
      rw [show skipJsonWs ('\n' :: ' ' :: ' ' :: (dumpsItem p ++ dumpsTail ps))
          = skipJsonWs (dumpsItem p ++ dumpsTail ps) from by
        rw [skipJsonWs_ws _ _ (by decide), skipJsonWs_ws _ _ (by decide),
          skipJsonWs_ws _ _ (by decide)]]
      rw [show skipJsonWs (dumpsItem p ++ dumpsTail ps)
          = dumpsItem p ++ dumpsTail ps from by
        rw [dumpsItem_shape]
        rw [skipJsonWs_nonws _ _ (by decide)]]
      split
      · rename_i rest2 heq
        rw [dumpsItem_shape] at heq
        injection heq with hc heq2
        exact absurd hc (by decide)
      · rename_i hne
        rw [parseMembers_dumps ps p [] (g2 + 1) hbound]
    unfold loads
    rw [hg2, dumps_data_shape, hpv]
    rfl

theorem dumps_mid_shape (p : String × String) (ps : List (String × String)) :
    (dumps (p :: ps)).data =
      '\x7b' :: (('\n' :: ' ' :: ' ' :: (dumpsItem p ++
        ps.foldr (fun q r => ',' :: '\n' :: ' ' :: ' ' :: dumpsItem q ++ r) [] ++
        ['\n'])) ++ ['\x7d']) := by
  rw [dumps_data_shape]
  simp [dumpsTail, List.append_assoc]

theorem pyStrip_dumps (m : List (String × String)) :
    pyStrip (dumps m) = dumps m := by
  match m with
  | [] => rfl
  | p :: ps =>
    unfold pyStrip
    rw [dumps_mid_shape, stripChars_braces, ← dumps_mid_shape]

theorem stripCodeFences_dumps (m : List (String × String)) :
    stripCodeFences (dumps m) = dumps m := by
  match m with
  | [] => rfl
  | p :: ps =>
    unfold stripCodeFences
    rw [dumps_mid_shape]
    rw [show dropLeadFence ('\x7b' :: (('\n' :: ' ' :: ' ' :: (dumpsItem p ++
        ps.foldr (fun q r => ',' :: '\n' :: ' ' :: ' ' :: dumpsItem q ++ r) [] ++
        ['\n'])) ++ ['\x7d'])) =
      '\x7b' :: (('\n' :: ' ' :: ' ' :: (dumpsItem p ++
        ps.foldr (fun q r => ',' :: '\n' :: ' ' :: ' ' :: dumpsItem q ++ r) [] ++
        ['\n'])) ++ ['\x7d']) from by
      unfold dropLeadFence
      rw [if_neg (by intro hx; rw [show leadsWith ['`', '`', '`']
        ('\x7b' :: (('\n' :: ' ' :: ' ' :: (dumpsItem p ++
          ps.foldr (fun q r => ',' :: '\n' :: ' ' :: ' ' :: dumpsItem q ++ r) [] ++
          ['\n'])) ++ ['\x7d'])) = false from rfl] at hx; exact absurd hx (by simp))]]
    rw [stripChars_braces]
    rw [show dropTrailFence ('\x7b' :: (('\n' :: ' ' :: ' ' :: (dumpsItem p ++
        ps.foldr (fun q r => ',' :: '\n' :: ' ' :: ' ' :: dumpsItem q ++ r) [] ++
        ['\n'])) ++ ['\x7d'])) =
      '\x7b' :: (('\n' :: ' ' :: ' ' :: (dumpsItem p ++
        ps.foldr (fun q r => ',' :: '\n' :: ' ' :: ' ' :: dumpsItem q ++ r) [] ++
        ['\n'])) ++ ['\x7d']) from by
      unfold dropTrailFence
      rw [if_neg (by
        rw [show ('\x7b' :: (('\n' :: ' ' :: ' ' :: (dumpsItem p ++
          ps.foldr (fun q r => ',' :: '\n' :: ' ' :: ' ' :: dumpsItem q ++ r) [] ++
          ['\n'])) ++ ['\x7d'])).reverse =
          '\x7d' :: ((('\n' :: ' ' :: ' ' :: (dumpsItem p ++
            ps.foldr (fun q r => ',' :: '\n' :: ' ' :: ' ' :: dumpsItem q ++ r) [] ++
            ['\n'])).reverse) ++ ['\x7b']) from by simp]
        intro hx
        rw [show leadsWith ['`', '`', '`'] ('\x7d' :: ((('\n' :: ' ' :: ' ' ::
          (dumpsItem p ++
            ps.foldr (fun q r => ',' :: '\n' :: ' ' :: ' ' :: dumpsItem q ++ r) [] ++
            ['\n'])).reverse) ++ ['\x7b'])) = false from rfl] at hx
        exact absurd hx (by simp))]]
    rw [stripChars_braces, ← dumps_mid_shape]

theorem dumps_strip_id (m : List (String × String)) :
    stripCodeFences (pyStrip (dumps m)) = dumps m := by
  rw [pyStrip_dumps, stripCodeFences_dumps]

theorem any_key_false_of_notin (acc : List (String × Json)) (k : String)
    (h : k ∉ acc.map Prod.fst) : acc.any (fun p => p.1 == k) = false := by
  rw [Bool.eq_false_iff]
  intro hany
  obtain ⟨p, hp, hpk⟩ := List.any_eq_true.mp hany
  exact h (List.mem_map.mpr ⟨p, hp, beq_iff_eq.mp hpk⟩)

theorem objInsert_notmem (acc : List (String × Json)) (k : String) (v : Json)
    (h : k ∉ acc.map Prod.fst) : objInsert acc k v = acc ++ [(k, v)] := by
  unfold objInsert
  rw [any_key_false_of_notin acc k h]
  simp

theorem insertAllStr_map :
    ∀ (m : List (String × String)) (acc : List (String × Json)),
      (acc.map Prod.fst ++ m.map Prod.fst).Nodup →
      insertAllStr acc m = acc ++ m.map (fun p => (p.1, Json.str p.2)) := by
  intro m
  induction m with
  | nil =>
    intro acc h
    simp [insertAllStr]
  | cons p ps ih =>
    intro acc h
    have hnotin : p.1 ∉ acc.map Prod.fst := by
      intro hmem
      have hdisj := (List.nodup_append.mp h).2.2
      exact hdisj hmem (by simp)
    have hstep : insertAllStr acc (p :: ps)
        = insertAllStr (objInsert acc p.1 (Json.str p.2)) ps := rfl
    rw [hstep, objInsert_notmem acc p.1 _ hnotin]
    rw [ih (acc ++ [(p.1, Json.str p.2)]) (by
      simp only [List.map_append, List.map_cons, List.map_nil] at h ⊢
      simpa [List.append_assoc] using h)]
    simp [List.append_assoc]

theorem hasKey_iff (kvs : List (String × Json)) (k : String) :
    hasKey kvs k = true ↔ k ∈ kvs.map Prod.fst := by
  unfold hasKey
  rw [List.any_eq_true]
  constructor
  · rintro ⟨p, hp, hpk⟩
    exact List.mem_map.mpr ⟨p, hp, beq_iff_eq.mp hpk⟩
  · intro hk
    obtain ⟨p, hp, hpk⟩ := List.mem_map.mp hk
    exact ⟨p, hp, beq_iff_eq.mpr hpk⟩

theorem filterMap_strs_keys (P : List (String × Json)) :
    ((P.filterMap (fun kv => match kv.2 with
        | Json.str s => some (kv.1, s)
        | _ => none)).map Prod.fst).Sublist (P.map Prod.fst) := by
  induction P with
  | nil => simp
  | cons kv P ih =>
    obtain ⟨k, v⟩ := kv
    cases v with
    | str s =>
      simp only [List.filterMap_cons, List.map_cons]
      exact ih.cons₂ k
    | null =>
      simp only [List.filterMap_cons, List.map_cons]
      exact ih.cons k
    | bool b =>
      simp only [List.filterMap_cons, List.map_cons]
      exact ih.cons k
    | num l =>
      simp only [List.filterMap_cons, List.map_cons]
      exact ih.cons k
    | arr xs =>
      simp only [List.filterMap_cons, List.map_cons]
      exact ih.cons k
    | obj ms =>
      simp only [List.filterMap_cons, List.map_cons]
      exact ih.cons k

theorem parseJsonSafely_nodup (t : String) :
    ((parseJsonSafely t).map Prod.fst).Nodup := by
  unfold parseJsonSafely
  split
  · rename_i kvs heq
    unfold loads at heq
    split at heq
    · rename_i j rest heq2
      split at heq
      · injection heq with hj
        subst hj
        exact (parser_obj_nodup _).1 _ _ _ heq2
      · exact absurd heq (by simp)
    · exact absurd heq (by simp)
  · simp

theorem pyBind_eq_ok {α β : Type} (x : Except PyErr α) (f : α → Except PyErr β)
    (b : β) (h : (x >>= f) = Except.ok b) :
    ∃ a, x = Except.ok a ∧ f a = Except.ok b := by
  cases x with
  | error e =>
    have h2 : (Except.error e : Except PyErr β) = Except.ok b := h
    exact absurd h2 (by simp)
  | ok a => exact ⟨a, rfl, h⟩

theorem normSnippet_ok_props (P : List (String × Json)) (M : List (String × String))
    (hPn : (P.map Prod.fst).Nodup) (h : normSnippet P = .ok M) :
    (M.map Prod.fst).Nodup ∧
    ¬(("name" ∈ M.map Prod.fst) ∧ ("arguments" ∈ M.map Prod.fst)) := by
  unfold normSnippet at h
  split at h
  · split at h
    · exact absurd h (by simp)
    · rename_i args hlk
      obtain ⟨hasFn, hx1, h⟩ := pyBind_eq_ok _ _ _ h
      (try dsimp only at h)
      by_cases hb1 : hasFn = true
      · rw [if_pos hb1] at h
        obtain ⟨hasCt, hx2, h⟩ := pyBind_eq_ok _ _ _ h
        (try dsimp only at h)
        by_cases hb2 : hasCt = true
        · rw [if_pos hb2] at h
          obtain ⟨fn, hx3, h⟩ := pyBind_eq_ok _ _ _ h
          (try dsimp only at h)
          obtain ⟨ct, hx4, h⟩ := pyBind_eq_ok _ _ _ h
          (try dsimp only at h)
          split at h
          · obtain ⟨u, v, h3⟩ : ∃ u v, Except.ok [(u, v)] = Except.ok M := ⟨_, _, h⟩
            obtain rfl : [(u, v)] = M := by injection h3
            refine ⟨by simp, ?_⟩
            rintro ⟨h1, h2⟩
            simp only [List.map_cons, List.map_nil, List.mem_cons,
              List.not_mem_nil, or_false] at h1 h2
            exact absurd (h1.trans h2.symm) (by decide)
          · have h2 : Except.ok ([] : List (String × String)) = Except.ok M := h
            obtain rfl : ([] : List (String × String)) = M := by injection h2
            exact ⟨by simp, by rintro ⟨h1, -⟩; simp at h1⟩
        · rw [if_neg hb2] at h
          have h2 : Except.ok ([] : List (String × String)) = Except.ok M := h
          obtain rfl : ([] : List (String × String)) = M := by injection h2
          exact ⟨by simp, by rintro ⟨h1, -⟩; simp at h1⟩
      · rw [if_neg hb1] at h
        have h2 : Except.ok ([] : List (String × String)) = Except.ok M := h
        obtain rfl : ([] : List (String × String)) = M := by injection h2
        exact ⟨by simp, by rintro ⟨h1, -⟩; simp at h1⟩
  · rename_i hcond
    have h2 : Except.ok (P.filterMap (fun kv => match kv.2 with
        | Json.str s => some (kv.1, s)
        | _ => none)) = Except.ok M := h
    have hMe : P.filterMap (fun kv => match kv.2 with
        | Json.str s => some (kv.1, s)
        | _ => none) = M := by injection h2
    subst hMe
    refine ⟨hPn.sublist (filterMap_strs_keys P), ?_⟩
    rintro ⟨h1, h2⟩
    have hsub := (filterMap_strs_keys P).subset
    exact hcond (by
      rw [Bool.and_eq_true, hasKey_iff, hasKey_iff]
      exact ⟨hsub h1, hsub h2⟩)

theorem normSnippet_strmap (M : List (String × String))
    (hnb : ¬(("name" ∈ M.map Prod.fst) ∧ ("arguments" ∈ M.map Prod.fst))) :
    normSnippet (M.map (fun p => (p.1, Json.str p.2))) = .ok M := by
  unfold normSnippet
  rw [if_neg (by
    intro hb
    rw [Bool.and_eq_true, hasKey_iff, hasKey_iff] at hb
    simp only [List.map_map] at hb
    exact hnb ⟨by simpa using hb.1, by simpa using hb.2⟩)]
  have hfm : (M.map (fun p => (p.1, Json.str p.2))).filterMap
      (fun kv => match kv.2 with
        | Json.str s => some (kv.1, s)
        | _ => none) = M := by
    rw [List.filterMap_map]
    have hfe : ((fun kv : String × Json => match kv.2 with
        | Json.str s => some (kv.1, s)
        | _ => none) ∘ (fun p : String × String => (p.1, Json.str p.2)))
        = fun p => some p := by
      funext p
      rfl
    rw [hfe]
    exact List.filterMap_some M
  rw [hfm]
  rfl

theorem parseJsonSafely_dumps (M : List (String × String))
    (h : (M.map Prod.fst).Nodup) :
    parseJsonSafely (dumps M) = M.map (fun p => (p.1, Json.str p.2)) := by
  unfold parseJsonSafely
  rw [dumps_strip_id, loads_dumps]
  (try dsimp only)
  rw [insertAllStr_map M [] (by simpa using h)]
  simp

/-- C7: for all raw generator text `T`, when `normalize T` succeeds with a
(non-empty) mapping `M`, re-serializing `M` with `json.dumps(·, indent=2)` and
normalizing again reproduces exactly `M`: the
`_normalize_code_snippet ∘ _parse_json_safely` chain is idempotent on its own
output. -/
theorem C7_normalize_roundtrip (T : String) (M : List (String × String))
    (h : normalize T = .ok M) (hne : M ≠ []) :
    normalize (dumps M) = .ok M := by
  unfold normalize at h ⊢
  obtain ⟨hMn, hMb⟩ := normSnippet_ok_props (parseJsonSafely T) M
    (parseJsonSafely_nodup T) h
  rw [parseJsonSafely_dumps M hMn]
  exact normSnippet_strmap M hMb

/-- Witness for C7 at the concrete reply `\x7b"main.py": "print(1)"\x7d`. -/
theorem C7_normalize_roundtrip_witness :
    normalize "\x7b\"main.py\": \"print(1)\"\x7d" = .ok [("main.py", "print(1)")] ∧
    ([("main.py", "print(1)")] : List (String × String)) ≠ [] ∧
    normalize (dumps [("main.py", "print(1)")]) = .ok [("main.py", "print(1)")] :=
  ⟨rfl, by decide,
    C7_normalize_roundtrip "\x7b\"main.py\": \"print(1)\"\x7d"
      [("main.py", "print(1)")] rfl (by decide)⟩

end Superbot
